import Mathlib

/-!
Verification development for the `codex-a2a` repository.

The core under verification is `CodexExecutor` (`src/codex-executor.ts`):
a streaming event-translation engine that turns a backend thread-event
stream into A2A protocol updates (`status-update` / `artifact-update`),
with per-item incremental bookkeeping, session (thread) affinity keyed by
context id and working directory, and cooperative cancellation.

Shallow-embedding conventions:
* JS `Map<string, α>` is an association list with unique keys
  (`kvGet` / `kvSet` / `kvDel`), JS `Set<string>` a duplicate-free list
  (`setAdd` / `List.erase` / `List.contains`).
* JSON payloads (`usage`, `changes`, tool arguments/results, …) are a
  `Jx` tree; `JSON.stringify` is modelled by the simple deterministic
  encoder `Jx.encode` (the exact pretty-printing is irrelevant to every
  claim, only which payload is serialized where).
* `crypto.randomUUID()` is an oracle: functions that consult it take the
  generated value as an explicit `uuid` argument.  Random `messageId`
  fields and timestamps are omitted from published updates, since no
  observable property here depends on them.
* Asynchrony: `execute` runs synchronously up to the
  `thread.runStreamed` await and then once per `for await` boundary, so
  external `cancelTask` calls can interleave exactly at stream
  boundaries.  The `schedule` argument lists the `cancelTask` calls
  (task id and fresh uuid) that run right before each boundary's
  cancellation check; each such call publishes to its own event bus
  (collected as `BusOut`s), separate from the execution's bus.
* The event-bus `finished()` signal is the `finished` flag of the
  respective output.
-/

namespace CodexA2A

/-! ### JS `Map<string, α>` as an association list -/

def kvGet {α : Type} : List (String × α) → String → Option α
  | [], _ => none
  | (k', v) :: rest, k => if k' = k then some v else kvGet rest k

def kvDel {α : Type} : List (String × α) → String → List (String × α)
  | [], _ => []
  | (k', v) :: rest, k => if k' = k then kvDel rest k else (k', v) :: kvDel rest k

def kvSet {α : Type} (m : List (String × α)) (k : String) (v : α) : List (String × α) :=
  (k, v) :: kvDel m k

/-- JS `Set.add`: append when absent. -/
def setAdd (s : List String) (t : String) : List String :=
  if t ∈ s then s else s ++ [t]

/-! ### JSON values and the serializer (`stringifyToolOutput`) -/

/-- A JSON value, the payloads the executor serializes (usage, changes,
tool arguments and results, todo items). -/
inductive Jx
  | null
  | bool (b : Bool)
  | num (n : Int)
  | str (s : String)
  | arr (elems : List Jx)
  | obj (fields : List (String × Jx))

mutual

/-- Model of `JSON.stringify` used by `stringifyToolOutput`. -/
def Jx.encode : Jx → String
  | .null => "null"
  | .bool b => if b then "true" else "false"
  | .num n => toString n
  | .str s => "\"" ++ s ++ "\""
  | .arr xs => "[" ++ Jx.encodeItems xs ++ "]"
  | .obj fs => "\x7b" ++ Jx.encodeFields fs ++ "\x7d"

def Jx.encodeItems : List Jx → String
  | [] => ""
  | [x] => Jx.encode x
  | x :: rest => Jx.encode x ++ ", " ++ Jx.encodeItems rest

def Jx.encodeFields : List (String × Jx) → String
  | [] => ""
  | [(k, v)] => "\"" ++ k ++ "\": " ++ Jx.encode v
  | (k, v) :: rest => "\"" ++ k ++ "\": " ++ Jx.encode v ++ ", " ++ Jx.encodeFields rest

end

/-- `CodexExecutor.stringifyToolOutput`: `null`/`undefined` become `''`,
strings pass through, anything else is `JSON.stringify`ed (the
`catch`/`String(value)` fallback is unreachable for total `Jx.encode`). -/
def stringifyToolOutput : Jx → String
  | .null => ""
  | .str s => s
  | v => Jx.encode v

/-! ### Published protocol updates (the `eventBus.publish` payloads) -/

/-- A2A task states. -/
inductive TState
  | submitted | working | completed | failed | canceled
deriving DecidableEq, Repr

/-- The `data` record of a `publishToolUpdate` message, one constructor
per record shape the source constructs (fields in source order; the
`request.name` discriminator is implied by the constructor). -/
inductive ToolUpdate
  | commandStarted (callId status command : String)
  | commandCompleted (callId status command : String) (exitCode : Option Int)
  | fileChangeUpdate (callId status : String) (changes : Jx)
  | mcpStarted (callId status server tool : String) (arguments : Jx)
  | mcpFailed (callId : String) (error : String)
  | mcpCompleted (callId : String) (result : Jx)
  | webSearchUpdate (callId query : String)
  | todoListUpdate (callId : String) (items : Jx)

/-- A part of a published agent message: a `text` part, a `data` part
carrying a thought `{ text }`, or a `data` part carrying a tool-update
record. -/
inductive MsgPart
  | text (t : String)
  | thoughtData (text : String)
  | toolData (u : ToolUpdate)

/-- A published agent `Message` (role is always `'agent'`; the random
`messageId` is omitted, see the header). -/
structure Msg where
  taskId : String
  contextId : String
  parts : List MsgPart

/-- One `eventBus.publish` payload: the initial `Task`, a
`status-update`, or an `artifact-update`. -/
inductive Pub
  | taskPub (taskId contextId : String)
  | statusUpdate (taskId contextId : String) (state : TState) (final : Bool)
      (message : Option Msg) (codexAgentKind : Option String)
  | artifactUpdate (taskId contextId artifactId : String) (text : String)
      (append lastChunk : Bool)

/-! ### Backend (Codex SDK) events -/

/-- A thread item, one constructor per `item.type` the executor
dispatches on (`otherItem` is the ignored default arm). -/
inductive Item
  | agentMessage (id : String) (text : String)
  | reasoning (id : String) (text : String)
  | commandExecution (id status command : String) (aggregatedOutput : String)
      (exitCode : Option Int)
  | fileChange (id status : String) (changes : Jx)
  | mcpToolCall (id status server tool : String) (arguments : Jx)
      (error : Option String) (result : Option Jx)
  | webSearch (id query : String)
  | todoList (id : String) (items : Jx)
  | errorItem (message : String)
  | otherItem (id : String)

/-- A backend `ThreadEvent`. -/
inductive ThreadEvent
  | turnStarted
  | turnCompleted (usage : Jx)
  | turnFailed (errorMessage : String)
  | itemStarted (item : Item)
  | itemUpdated (item : Item)
  | itemCompleted (item : Item)

/-! ### Configuration (`src/config.ts`) -/

structure CodexConfig where
  model : String
  maxTokens : Int
  autoApprove : Bool
  sandboxMode : String
  writableRoots : List String
  networkAccess : Bool
  approvalPolicy : String
  webSearchEnabled : Bool
  reasoningEffort : String
  workingDirectory : Option String
deriving DecidableEq, Repr

def DEFAULT_CODEX_CONFIG : CodexConfig :=
  { model := "gpt-5-codex"
    maxTokens := 4096
    autoApprove := false
    sandboxMode := "workspace-write"
    writableRoots := []
    networkAccess := true
    approvalPolicy := "on-failure"
    webSearchEnabled := true
    reasoningEffort := "medium"
    workingDirectory := some "" }

/-- TS `Partial<CodexConfig>`: each field optionally overridden. -/
structure CodexConfigPatch where
  model : Option String := none
  maxTokens : Option Int := none
  autoApprove : Option Bool := none
  sandboxMode : Option String := none
  writableRoots : Option (List String) := none
  networkAccess : Option Bool := none
  approvalPolicy : Option String := none
  webSearchEnabled : Option Bool := none
  reasoningEffort : Option String := none
  workingDirectory : Option (Option String) := none
deriving DecidableEq, Repr

/-- Spread merge `{ ...DEFAULT_CODEX_CONFIG, ...this.getConfig(contextId) }`. -/
def mergeConfig (d : CodexConfig) (p : CodexConfigPatch) : CodexConfig :=
  { model := p.model.getD d.model
    maxTokens := p.maxTokens.getD d.maxTokens
    autoApprove := p.autoApprove.getD d.autoApprove
    sandboxMode := p.sandboxMode.getD d.sandboxMode
    writableRoots := p.writableRoots.getD d.writableRoots
    networkAccess := p.networkAccess.getD d.networkAccess
    approvalPolicy := p.approvalPolicy.getD d.approvalPolicy
    webSearchEnabled := p.webSearchEnabled.getD d.webSearchEnabled
    reasoningEffort := p.reasoningEffort.getD d.reasoningEffort
    workingDirectory := p.workingDirectory.getD d.workingDirectory }

/-- `CodexExecutor.resolveConfig`. -/
def resolveConfig (getConfig : String → CodexConfigPatch) (contextId : String) : CodexConfig :=
  mergeConfig DEFAULT_CODEX_CONFIG (getConfig contextId)

/-! ### Working-directory resolution -/

/-- JS `String.prototype.trim`: strip leading and trailing whitespace
(a computable model, used instead of `String.trim`, which is not
kernel-reducible). -/
def jsTrim (s : String) : String :=
  ⟨((s.data.dropWhile Char.isWhitespace).reverse.dropWhile Char.isWhitespace).reverse⟩

/-- `CodexExecutor.normalizeWorkingDirectory`: falsy (absent or `''`)
becomes absent; otherwise trim, and a whitespace-only value becomes
absent. -/
def normalizeWorkingDirectory : Option String → Option String
  | none => none
  | some workingDirectory =>
    if workingDirectory = "" then none
    else
      let trimmed := jsTrim workingDirectory
      if trimmed.length > 0 then some trimmed else none

/-- Line 73: `workingDirOverride || this.normalizeWorkingDirectory(config.workingDirectory)`
(JS `||`: an empty-string override is falsy and falls through). -/
def resolveWorkingDir (override configWd : Option String) : Option String :=
  match override with
  | some s => if s = "" then normalizeWorkingDirectory configWd else some s
  | none => normalizeWorkingDirectory configWd

/-- Line 75: `workingDir || process.cwd()` — the effective working
directory used in the thread binding key. -/
def bindingWorkingDir (override configWd : Option String) (cwd : String) : String :=
  match resolveWorkingDir override configWd with
  | some s => if s = "" then cwd else s
  | none => cwd

/-- Line 90: `workingDirectory: workingDir || undefined` in the
`startThread` options. -/
def jsOrUndefined : Option String → Option String
  | some s => if s = "" then none else some s
  | none => none

/-- The options record passed to `codex.startThread`. -/
structure ThreadOptions where
  skipGitRepoCheck : Bool
  webSearchEnabled : Bool
  networkAccessEnabled : Bool
  webSearchMode : String
  workingDirectory : Option String
  sandboxMode : String
  approvalPolicy : String
deriving DecidableEq, Repr

/-! ### Executor state and entrypoints -/

/-- The mutable fields of `CodexExecutor`.  `threads` stores an opaque
thread identity (a serial number); `nextThread` is the supply of fresh
identities handed out by the `startThread` factory. -/
structure ExecSt where
  threads : List (String × Nat)
  threadWorkingDirs : List (String × String)
  canceledTasks : List String
  taskContexts : List (String × String)
  nextThread : Nat
deriving DecidableEq, Repr

def ExecSt.empty : ExecSt := ⟨[], [], [], [], 0⟩

/-- What one event bus saw: the published updates and whether
`finished()` was signalled on it. -/
structure BusOut where
  pubs : List Pub
  finished : Bool

/-- A part of the incoming user message (`text` or any other part kind). -/
inductive UserPart
  | text (t : String)
  | other
deriving DecidableEq, Repr

/-- The `RequestContext` fields `execute` consumes (`taskExists` is
whether `requestContext.task` was present). -/
structure RequestCtx where
  taskId : String
  contextId : String
  userMessage : List UserPart
  taskExists : Bool

/-- Lines 59–62: textual parts of the input message joined by newline. -/
def extractText (parts : List UserPart) : String :=
  String.intercalate "\n"
    (parts.filterMap fun p => match p with | .text t => some t | .other => none)

/-- `CodexExecutor.publishStatus` (timestamp omitted; metadata is the
`codexAgent.kind` tag when given). -/
def publishStatus (taskId contextId : String) (state : TState) (final : Bool)
    (message : Option Msg) (codexAgentKind : Option String) : Pub :=
  .statusUpdate taskId contextId state final message codexAgentKind

/-- `CodexExecutor.publishTextContent`. -/
def publishTextContent (taskId contextId : String) (text : String) : Pub :=
  publishStatus taskId contextId .working false
    (some ⟨taskId, contextId, [.text text]⟩) (some "text-content")

/-- `CodexExecutor.publishThought`. -/
def publishThought (taskId contextId : String) (text : String) : Pub :=
  publishStatus taskId contextId .working false
    (some ⟨taskId, contextId, [.thoughtData text]⟩) (some "thought")

/-- `CodexExecutor.publishToolUpdate`. -/
def publishToolUpdate (taskId contextId : String) (data : ToolUpdate) : Pub :=
  publishStatus taskId contextId .working false
    (some ⟨taskId, contextId, [.toolData data]⟩) (some "tool-call-update")

/-- `CodexExecutor.publishToolOutput`. -/
def publishToolOutput (taskId contextId callId output : String)
    (append lastChunk : Bool) : Pub :=
  .artifactUpdate taskId contextId ("tool-" ++ callId ++ "-output") output append lastChunk

/-- `CodexExecutor.publishFailure`, minus the `finished()` signal the
callers account for in their output flag. -/
def publishFailurePubs (taskId contextId errorMessage : String) : List Pub :=
  [publishStatus taskId contextId .failed true
    (some ⟨taskId, contextId, [.text ("Error: " ++ errorMessage)]⟩) (some "state-change")]

/-- `CodexExecutor.publishCanceled`: publish the Canceled terminal (the
status update's context id falls back to a fresh `uuid` when none is
given), then clear the task from `canceledTasks` and `taskContexts`. -/
def publishCanceled (st : ExecSt) (taskId : String) (contextId : Option String)
    (uuid : String) : ExecSt × List Pub :=
  let ctx := contextId.getD uuid
  let message : Msg := ⟨taskId, ctx, [.text "Task canceled."]⟩
  ({ st with canceledTasks := st.canceledTasks.erase taskId
             taskContexts := kvDel st.taskContexts taskId },
   [publishStatus taskId ctx .canceled true (some message) (some "state-change")])

/-- `CodexExecutor.cancelTask`: mark the task canceled, look up its
recorded context id, publish the Canceled terminal and signal
`finished()` on the cancel caller's bus. -/
def cancelTask (st : ExecSt) (taskId : String) (uuid : String) : ExecSt × BusOut :=
  let st1 := { st with canceledTasks := setAdd st.canceledTasks taskId }
  let contextId := kvGet st1.taskContexts taskId
  let (st2, ps) := publishCanceled st1 taskId contextId uuid
  (st2, ⟨ps, true⟩)

/-! ### The per-event dispatch (body of the `for await` loop) -/

/-- Result of dispatching one event: the updated bookkeeping maps, the
updates published for it, and whether it was a `turn.failed` (which
publishes the failure, signals `finished()` and stops the loop). -/
structure DispatchOut where
  sentText : List (String × Nat)
  sentState : List (String × String)
  pubs : List Pub
  failed : Bool

/-- The `switch (item.type)` of `execute` (lines 151–304). -/
def handleItem (taskId contextId : String) (sentText : List (String × Nat))
    (sentState : List (String × String)) (item : Item) (isCompleted : Bool) :
    DispatchOut :=
  match item with
  | .agentMessage id text =>
    if text ≠ "" then
      let prevLength := (kvGet sentText id).getD 0
      let deltaText := text.drop prevLength
      if deltaText.length > 0 then
        ⟨kvSet sentText id text.length, sentState,
          [publishTextContent taskId contextId deltaText], false⟩
      else ⟨sentText, sentState, [], false⟩
    else ⟨sentText, sentState, [], false⟩
  | .reasoning id text =>
    if text ≠ "" then
      let prevLength := (kvGet sentText id).getD 0
      let deltaText := text.drop prevLength
      if deltaText.length > 0 then
        ⟨kvSet sentText id text.length, sentState,
          [publishThought taskId contextId deltaText], false⟩
      else ⟨sentText, sentState, [], false⟩
    else ⟨sentText, sentState, [], false⟩
  | .commandExecution id status command aggregatedOutput exitCode =>
    let stateKey := id ++ ":state"
    let outputKey := id ++ ":output"
    let lastState := kvGet sentState stateKey
    let started :=
      if lastState = none then
        (kvSet sentState stateKey "started",
         [publishToolUpdate taskId contextId (.commandStarted id status command)])
      else (sentState, [])
    let output :=
      if aggregatedOutput ≠ "" then
        let prevLength := (kvGet sentText outputKey).getD 0
        let deltaOutput := aggregatedOutput.drop prevLength
        if deltaOutput.length > 0 then
          (kvSet sentText outputKey aggregatedOutput.length,
           [publishToolOutput taskId contextId id deltaOutput true isCompleted])
        else (sentText, [])
      else (sentText, [])
    let done :=
      if isCompleted ∧ lastState ≠ some "completed" then
        (kvSet started.1 stateKey "completed",
         [publishToolUpdate taskId contextId (.commandCompleted id status command exitCode)])
      else (started.1, [])
    ⟨output.1, done.1, started.2 ++ output.2 ++ done.2, false⟩
  | .fileChange id status changes =>
    if isCompleted then
      ⟨sentText, sentState,
        [publishToolOutput taskId contextId id
           (stringifyToolOutput (Jx.obj [("changes", changes)])) false true,
         publishToolUpdate taskId contextId (.fileChangeUpdate id status changes)], false⟩
    else ⟨sentText, sentState, [], false⟩
  | .mcpToolCall id status server tool arguments error result =>
    let stateKey := id ++ ":state"
    let lastState := kvGet sentState stateKey
    let started :=
      if lastState = none then
        (kvSet sentState stateKey "started",
         [publishToolUpdate taskId contextId (.mcpStarted id status server tool arguments)])
      else (sentState, [])
    if isCompleted ∧ lastState ≠ some "completed" then
      let sentState2 := kvSet started.1 stateKey "completed"
      match error with
      | some err =>
        ⟨sentText, sentState2,
          started.2 ++ [publishToolUpdate taskId contextId (.mcpFailed id err)], false⟩
      | none =>
        match result with
        | some res =>
          ⟨sentText, sentState2,
            started.2 ++
              [publishToolOutput taskId contextId id (stringifyToolOutput res) false true,
               publishToolUpdate taskId contextId (.mcpCompleted id res)], false⟩
        | none => ⟨sentText, sentState2, started.2, false⟩
    else ⟨sentText, started.1, started.2, false⟩
  | .webSearch id query =>
    ⟨sentText, sentState,
      [publishToolUpdate taskId contextId (.webSearchUpdate id query)], false⟩
  | .todoList id items =>
    ⟨sentText, sentState,
      [publishToolOutput taskId contextId id
         (stringifyToolOutput (Jx.obj [("items", items)])) false true,
       publishToolUpdate taskId contextId (.todoListUpdate id items)], false⟩
  | .errorItem message =>
    ⟨sentText, sentState, [publishTextContent taskId contextId ("Error: " ++ message)], false⟩
  | .otherItem _ => ⟨sentText, sentState, [], false⟩

/-- Dispatch of one backend event (lines 114–305). -/
def dispatch (taskId contextId : String) (sentText : List (String × Nat))
    (sentState : List (String × String)) : ThreadEvent → DispatchOut
  | .turnStarted =>
    ⟨sentText, sentState,
      [publishStatus taskId contextId .working false none (some "turn-started")], false⟩
  | .turnCompleted usage =>
    ⟨sentText, sentState,
      [publishToolOutput taskId contextId "turn-usage"
         (stringifyToolOutput (Jx.obj [("usage", usage)])) false true,
       publishStatus taskId contextId .working false none (some "turn-completed")], false⟩
  | .turnFailed errorMessage =>
    ⟨sentText, sentState, publishFailurePubs taskId contextId errorMessage, true⟩
  | .itemStarted item => handleItem taskId contextId sentText sentState item false
  | .itemUpdated item => handleItem taskId contextId sentText sentState item false
  | .itemCompleted item => handleItem taskId contextId sentText sentState item true

/-! ### The stream loop, external cancels interleaved at boundaries -/

/-- Run the `cancelTask` calls scheduled at one boundary, collecting the
output of each call's own event bus. -/
def runCancels (st : ExecSt) (calls : List (String × String)) : ExecSt × List BusOut :=
  match calls with
  | [] => (st, [])
  | (t, u) :: rest =>
    let r1 := cancelTask st t u
    let r2 := runCancels r1.1 rest
    (r2.1, r1.2 :: r2.2)

/-- The `for await (const event of events)` loop (lines 108–306) plus
the completion epilogue (lines 308–309).  Boundary `i` first runs the
externally scheduled `cancelTask` calls, then performs the cooperative
cancellation check, then dispatches the event. -/
def runLoop (st : ExecSt) (taskId contextId : String)
    (schedule : Nat → List (String × String)) (i : Nat)
    (sentText : List (String × Nat)) (sentState : List (String × String)) :
    List ThreadEvent → ExecSt × List Pub × Bool × List BusOut
  | [] =>
    let r := runCancels st (schedule i)
    (r.1, [publishStatus taskId contextId .completed true none (some "state-change")],
     true, r.2)
  | e :: rest =>
    let r := runCancels st (schedule i)
    if r.1.canceledTasks.contains taskId then
      let c := publishCanceled r.1 taskId (some contextId) ""
      (c.1, c.2, false, r.2)
    else
      let d := dispatch taskId contextId sentText sentState e
      if d.failed then (r.1, d.pubs, true, r.2)
      else
        let l := runLoop r.1 taskId contextId schedule (i + 1) d.sentText d.sentState rest
        (l.1, d.pubs ++ l.2.1, l.2.2.1, r.2 ++ l.2.2.2)

/-- Output of one `execute` call: what its event bus saw and the
`startThread` factory invocations it made (in order). -/
structure ExecOut where
  pubs : List Pub
  finished : Bool
  factoryCalls : List ThreadOptions

/-- `CodexExecutor.execute`.  Deterministic given the backend stream
`events`, the process working directory `cwd`, and the boundary
`schedule` of external `cancelTask` calls (see the header). -/
def execute (st : ExecSt) (req : RequestCtx)
    (getConfig : String → CodexConfigPatch)
    (getWorkingDirectory : String → Option String)
    (cwd : String) (events : List ThreadEvent)
    (schedule : Nat → List (String × String)) :
    ExecSt × ExecOut × List BusOut :=
  let st := { st with taskContexts := kvSet st.taskContexts req.taskId req.contextId }
  let initialPubs :=
    (if req.taskExists then [] else [Pub.taskPub req.taskId req.contextId]) ++
    [publishStatus req.taskId req.contextId .working false none (some "state-change")]
  if st.canceledTasks.contains req.taskId then
    let c := publishCanceled st req.taskId (some req.contextId) ""
    (c.1, ⟨initialPubs ++ c.2, false, []⟩, [])
  else
    let text := extractText req.userMessage
    if text = "" then
      (st, ⟨initialPubs ++ publishFailurePubs req.taskId req.contextId "No text content",
        true, []⟩, [])
    else
      let thread0 := kvGet st.threads req.contextId
      let config := resolveConfig getConfig req.contextId
      let workingDirOverride := getWorkingDirectory req.contextId
      let workingDir := resolveWorkingDir workingDirOverride config.workingDirectory
      let currentWorkingDir := bindingWorkingDir workingDirOverride config.workingDirectory cwd
      let existingThreadKey := req.contextId ++ ":" ++ currentWorkingDir
      let cachedThreadKey := kvGet st.threadWorkingDirs req.contextId
      let staled : ExecSt × Option Nat :=
        match thread0 with
        | some th =>
          if cachedThreadKey ≠ some existingThreadKey then
            ({ st with threads := kvDel st.threads req.contextId }, none)
          else (st, some th)
        | none => (st, none)
      let made : ExecSt × List ThreadOptions :=
        match staled.2 with
        | some _ => (staled.1, [])
        | none =>
          let options : ThreadOptions :=
            { skipGitRepoCheck := true
              webSearchEnabled := config.webSearchEnabled
              networkAccessEnabled := config.networkAccess
              webSearchMode := "live"
              workingDirectory := jsOrUndefined workingDir
              sandboxMode := config.sandboxMode
              approvalPolicy :=
                if config.approvalPolicy = "never" then "never" else config.approvalPolicy }
          ({ staled.1 with
              nextThread := staled.1.nextThread + 1
              threads := kvSet staled.1.threads req.contextId staled.1.nextThread
              threadWorkingDirs :=
                kvSet staled.1.threadWorkingDirs req.contextId existingThreadKey },
           [options])
      let l := runLoop made.1 req.taskId req.contextId schedule 0 [] [] events
      (l.1, ⟨initialPubs ++ l.2.1, l.2.2.1, made.2⟩, l.2.2.2)

/-! ### Observation helpers used by the verified properties -/

/-- Does this published update carry a "started" tool-update for `callId`
(a command-execution start record or an mcp start record)? -/
def isToolStartedFor (callId : String) : Pub → Bool
  | .statusUpdate _ _ _ _ (some ⟨_, _, [.toolData (.commandStarted c _ _)]⟩) _ => c == callId
  | .statusUpdate _ _ _ _ (some ⟨_, _, [.toolData (.mcpStarted c _ _ _ _)]⟩) _ => c == callId
  | _ => false

/-- Does this published update carry a terminal tool-update for `callId`
(command completion with exit code, mcp "failed", or mcp "completed")? -/
def isToolTerminalFor (callId : String) : Pub → Bool
  | .statusUpdate _ _ _ _ (some ⟨_, _, [.toolData (.commandCompleted c _ _ _)]⟩) _ => c == callId
  | .statusUpdate _ _ _ _ (some ⟨_, _, [.toolData (.mcpFailed c _)]⟩) _ => c == callId
  | .statusUpdate _ _ _ _ (some ⟨_, _, [.toolData (.mcpCompleted c _)]⟩) _ => c == callId
  | _ => false

def countToolStarted (callId : String) (pubs : List Pub) : Nat :=
  pubs.countP (isToolStartedFor callId)

def countToolTerminal (callId : String) (pubs : List Pub) : Nat :=
  pubs.countP (isToolTerminalFor callId)

/-! ### Map and string lemmas -/

theorem kvGet_kvDel_self {α : Type} (m : List (String × α)) (k : String) :
    kvGet (kvDel m k) k = none := by
  induction m with
  | nil => rfl
  | cons p rest ih =>
    obtain ⟨k', v⟩ := p
    by_cases h : k' = k
    · simp [kvDel, h, ih]
    · simp [kvDel, h, kvGet, ih]

theorem kvGet_kvDel_ne {α : Type} (m : List (String × α)) (k k' : String) (h : k ≠ k') :
    kvGet (kvDel m k) k' = kvGet m k' := by
  induction m with
  | nil => rfl
  | cons p rest ih =>
    obtain ⟨k'', v⟩ := p
    by_cases h2 : k'' = k
    · subst h2
      simp [kvDel, kvGet, h, ih]
    · simp only [kvDel, h2, if_false, kvGet]
      by_cases h3 : k'' = k' <;> simp [h3, ih]

theorem kvGet_kvSet_self {α : Type} (m : List (String × α)) (k : String) (v : α) :
    kvGet (kvSet m k v) k = some v := by
  simp [kvSet, kvGet]

theorem kvGet_kvSet_ne {α : Type} (m : List (String × α)) (k k' : String) (v : α)
    (h : k ≠ k') : kvGet (kvSet m k v) k' = kvGet m k' := by
  simp [kvSet, kvGet, h, kvGet_kvDel_ne m k k' h]

theorem sAppend_drop_length (a u : String) : (a ++ u).drop a.length = u := by
  apply String.ext
  simp [String.data_drop, String.data_append]

theorem sDrop_zero (s : String) : s.drop 0 = s := by
  apply String.ext
  simp [String.data_drop]

theorem sLength_pos_iff (s : String) : 0 < s.length ↔ s ≠ "" := by
  have hdata : s.length = s.data.length := rfl
  constructor
  · intro h hs
    subst hs
    exact absurd h (by decide)
  · intro h
    rw [hdata]
    refine List.length_pos.mpr ?_
    intro hd
    exact h (String.ext hd)

theorem sAppend_eq_empty_iff (a b : String) : a ++ b = "" ↔ a = "" ∧ b = "" := by
  constructor
  · intro h
    have hd : a.data ++ b.data = [] := by
      have := congrArg String.data h
      simpa [String.data_append] using this
    rcases List.append_eq_nil.mp hd with ⟨ha, hb⟩
    exact ⟨String.ext ha, String.ext hb⟩
  · rintro ⟨ha, hb⟩
    subst ha; subst hb; rfl

theorem sAppend_right_inj (a b c : String) (h : a ++ b = a ++ c) : b = c := by
  apply String.ext
  have := congrArg String.data h
  simp only [String.data_append] at this
  exact List.append_cancel_left this

/-! ### C9 — the concrete three-event scenario -/

/-- C9: for the stream `[turn.started, item.completed(agent_message "Hi"),
turn.completed(usage)]` with no cancellation, `execute` publishes, after the
initial task record and the Working state-change, exactly: Working tagged
`turn-started`; a Working message carrying the delta `"Hi"` (tagged
`text-content`); one final, non-append artifact chunk with artifact id
`tool-turn-usage-output` containing the serialized usage; Working tagged
`turn-completed`; and the final Completed terminal — then the sink is
finished. -/
theorem c9_scenario_publish_order (u : Jx) :
    (execute ExecSt.empty ⟨"task-1", "ctx-1", [.text "Hi"], false⟩
        (fun _ => {}) (fun _ => none) "/cwd"
        [.turnStarted, .itemCompleted (.agentMessage "item-1" "Hi"), .turnCompleted u]
        (fun _ => [])).2.1 =
      ⟨[Pub.taskPub "task-1" "ctx-1",
        publishStatus "task-1" "ctx-1" .working false none (some "state-change"),
        publishStatus "task-1" "ctx-1" .working false none (some "turn-started"),
        publishTextContent "task-1" "ctx-1" "Hi",
        publishToolOutput "task-1" "ctx-1" "turn-usage"
          (stringifyToolOutput (Jx.obj [("usage", u)])) false true,
        publishStatus "task-1" "ctx-1" .working false none (some "turn-completed"),
        publishStatus "task-1" "ctx-1" .completed true none (some "state-change")],
       true,
       [⟨true, true, true, "live", none, "workspace-write", "on-failure"⟩]⟩ := by
  rfl

/-! ### C5 — empty extracted input text -/

/-- C5: when the newline-join of the textual input parts is empty (and the
task is not pre-canceled, which would take the earlier cancellation branch),
`execute` publishes the Failed terminal whose message text is
`"Error: No text content"` (the `publishFailure` wrapper prefixes
`"Error: "` to the failure message `"No text content"`), signals the sink
finished, performs no `startThread` factory call, and leaves the session
registry (`threads` / `threadWorkingDirs`) untouched. -/
theorem c5_empty_text_fails_without_session (st : ExecSt) (req : RequestCtx)
    (gc : String → CodexConfigPatch) (gwd : String → Option String) (cwd : String)
    (events : List ThreadEvent) (schedule : Nat → List (String × String))
    (hc : st.canceledTasks.contains req.taskId = false)
    (ht : extractText req.userMessage = "") :
    (execute st req gc gwd cwd events schedule).2.1 =
      ⟨(if req.taskExists then [] else [Pub.taskPub req.taskId req.contextId]) ++
        [publishStatus req.taskId req.contextId .working false none (some "state-change")] ++
        publishFailurePubs req.taskId req.contextId "No text content",
       true, []⟩
    ∧ (execute st req gc gwd cwd events schedule).1.threads = st.threads
    ∧ (execute st req gc gwd cwd events schedule).1.threadWorkingDirs
        = st.threadWorkingDirs := by
  have hc2 : ¬ req.taskId ∈ st.canceledTasks := by simpa using hc
  unfold execute
  simp [hc2, ht]

theorem c5_witness :
    (ExecSt.empty.canceledTasks.contains "t" = false) ∧ extractText [.other] = "" ∧
    ((execute ExecSt.empty ⟨"t", "c", [.other], false⟩ (fun _ => {}) (fun _ => none) "/d"
        [] (fun _ => [])).2.1 =
      ⟨(if false then [] else [Pub.taskPub "t" "c"]) ++
        [publishStatus "t" "c" .working false none (some "state-change")] ++
        publishFailurePubs "t" "c" "No text content",
       true, []⟩
     ∧ (execute ExecSt.empty ⟨"t", "c", [.other], false⟩ (fun _ => {}) (fun _ => none) "/d"
        [] (fun _ => [])).1.threads = ExecSt.empty.threads
     ∧ (execute ExecSt.empty ⟨"t", "c", [.other], false⟩ (fun _ => {}) (fun _ => none) "/d"
        [] (fun _ => [])).1.threadWorkingDirs = ExecSt.empty.threadWorkingDirs) :=
  ⟨rfl, rfl,
    c5_empty_text_fails_without_session ExecSt.empty ⟨"t", "c", [.other], false⟩
      (fun _ => {}) (fun _ => none) "/d" [] (fun _ => []) rfl rfl⟩

/-! ### C2 — pre-canceled task id at `execute` start -/

/-- C2 counterexample: with `"task-1"` marked canceled when `execute`
starts, the claim's "marks the sink finished" fails — `execute` returns
from the cancellation branch without calling `eventBus.finished()`. -/
theorem c2_counterexample :
    (execute { ExecSt.empty with canceledTasks := ["task-1"] }
        ⟨"task-1", "ctx-1", [.text "Hi"], false⟩ (fun _ => {}) (fun _ => none) "/cwd"
        [.turnStarted] (fun _ => [])).2.1.finished = false := by
  rfl

/-- C2 amended: for a task id marked canceled when `execute` starts,
`execute` publishes the Canceled terminal status-update and never invokes
the `startThread` factory, but it does **not** mark the sink finished (the
`finished()` signal for cancellation is issued by `cancelTask`, not by
`execute`). -/
theorem c2_precanceled_cancels_without_factory (st : ExecSt) (req : RequestCtx)
    (gc : String → CodexConfigPatch) (gwd : String → Option String) (cwd : String)
    (events : List ThreadEvent) (schedule : Nat → List (String × String))
    (hc : st.canceledTasks.contains req.taskId = true) :
    (execute st req gc gwd cwd events schedule).2.1 =
      ⟨(if req.taskExists then [] else [Pub.taskPub req.taskId req.contextId]) ++
        [publishStatus req.taskId req.contextId .working false none (some "state-change")] ++
        [publishStatus req.taskId req.contextId .canceled true
          (some ⟨req.taskId, req.contextId, [.text "Task canceled."]⟩) (some "state-change")],
       false, []⟩ := by
  have hc2 : req.taskId ∈ st.canceledTasks := by simpa using hc
  unfold execute publishCanceled
  simp [hc2]

theorem c2_witness :
    (({ ExecSt.empty with canceledTasks := ["t"] } : ExecSt).canceledTasks.contains "t"
        = true) ∧
    (execute { ExecSt.empty with canceledTasks := ["t"] } ⟨"t", "c", [.text "x"], false⟩
        (fun _ => {}) (fun _ => none) "/d" [] (fun _ => [])).2.1 =
      ⟨(if false then [] else [Pub.taskPub "t" "c"]) ++
        [publishStatus "t" "c" .working false none (some "state-change")] ++
        [publishStatus "t" "c" .canceled true
          (some ⟨"t", "c", [.text "Task canceled."]⟩) (some "state-change")],
       false, []⟩ :=
  ⟨rfl,
    c2_precanceled_cancels_without_factory { ExecSt.empty with canceledTasks := ["t"] }
      ⟨"t", "c", [.text "x"], false⟩ (fun _ => {}) (fun _ => none) "/d" [] (fun _ => []) rfl⟩

/-! ### C6 — `cancel` after clearing is not a no-op -/

/-- C6 counterexample: after a first `cancelTask` has published a Canceled
terminal and cleared the tracked id, a second `cancelTask` for the same
task id is **not** a no-op: it publishes one more update and signals
`finished()` again. -/
theorem c6_counterexample :
    ((cancelTask (cancelTask ExecSt.empty "t1" "u1").1 "t1" "u2").2.pubs.length = 1)
    ∧ (cancelTask (cancelTask ExecSt.empty "t1" "u1").1 "t1" "u2").2.finished = true :=
  ⟨rfl, rfl⟩

/-- C6 amended: `cancel` is not idempotent after clearing — once a Canceled
terminal has been published and the tracked id cleared, a second
`cancelTask` for the same task id publishes another Canceled terminal
status-update (whose context id is the freshly generated uuid, since the
task-to-context mapping was cleared) and marks the bus finished again. -/
theorem c6_second_cancel_republishes (st : ExecSt) (t u1 u2 : String) :
    (cancelTask (cancelTask st t u1).1 t u2).2 =
      ⟨[publishStatus t u2 .canceled true (some ⟨t, u2, [.text "Task canceled."]⟩)
          (some "state-change")], true⟩ := by
  unfold cancelTask publishCanceled
  simp [kvGet_kvDel_self]

/-! ### C10 — cancel for an unknown task id publishes a fresh uuid context -/

/-- C10: when `cancelTask` runs for a task id with no recorded context id,
the published Canceled terminal carries the freshly generated uuid (the
`crypto.randomUUID()` oracle value) as its context id. -/
theorem c10_cancel_unknown_task_uses_fresh_uuid (st : ExecSt) (t uuid : String)
    (h : kvGet st.taskContexts t = none) :
    (cancelTask st t uuid).2 =
      ⟨[publishStatus t uuid .canceled true (some ⟨t, uuid, [.text "Task canceled."]⟩)
          (some "state-change")], true⟩ := by
  unfold cancelTask publishCanceled
  simp [h]

theorem c10_witness :
    kvGet (ExecSt.empty).taskContexts "t9" = none ∧
    (cancelTask ExecSt.empty "t9" "uuid-9").2 =
      ⟨[publishStatus "t9" "uuid-9" .canceled true
          (some ⟨"t9", "uuid-9", [.text "Task canceled."]⟩) (some "state-change")], true⟩ :=
  ⟨rfl, c10_cancel_unknown_task_uses_fresh_uuid ExecSt.empty "t9" "uuid-9" rfl⟩

/-! ### C8 — effective working directory -/

/-- The effective working directory exactly as claim C8 words it:
normalization (trim, empty-or-whitespace-only treated as absent) applied to
the per-context override too, priority to the normalized override, then the
normalized config value, then the process default.  Spec-side definition
for comparison with the embedded computation. -/
def specC8WorkingDir (override configWd : Option String) (cwd : String) : String :=
  match normalizeWorkingDirectory override with
  | some s => s
  | none =>
    match normalizeWorkingDirectory configWd with
    | some s => s
    | none => cwd

/-- C8 counterexample: a whitespace-only per-context override is used
verbatim by the code (it is truthy in JS), whereas the claim's
normalization would discard it and fall back to the config value. -/
theorem c8_counterexample :
    bindingWorkingDir (some " ") (some "/cfg") "/d" = " "
    ∧ specC8WorkingDir (some " ") (some "/cfg") "/d" = "/cfg"
    ∧ bindingWorkingDir (some " ") (some "/cfg") "/d"
        ≠ specC8WorkingDir (some " ") (some "/cfg") "/d" := by
  refine ⟨rfl, rfl, ?_⟩
  decide

/-- The amended effective working directory: a non-empty per-context
override is used verbatim (no trimming, whitespace-only kept); an absent or
empty-string override falls through to the config value, which **is**
normalized (trimmed, empty or whitespace-only treated as absent); the
process default directory is used when nothing remains. -/
def amendedC8WorkingDir (override configWd : Option String) (cwd : String) : String :=
  match override with
  | some s =>
    if s ≠ "" then s
    else
      match configWd with
      | some w => if jsTrim w = "" then cwd else jsTrim w
      | none => cwd
  | none =>
    match configWd with
    | some w => if jsTrim w = "" then cwd else jsTrim w
    | none => cwd

/-- C8 amended: the effective working directory used as the session
binding key equals `amendedC8WorkingDir`: priority to the override when it
is a non-empty string (used verbatim), else the normalized config value,
else the process default directory. -/
theorem c8_override_verbatim_config_normalized (ov cfg : Option String) (cwd : String) :
    bindingWorkingDir ov cfg cwd = amendedC8WorkingDir ov cfg cwd := by
  unfold bindingWorkingDir resolveWorkingDir normalizeWorkingDirectory amendedC8WorkingDir
  cases ov with
  | none =>
    cases cfg with
    | none => rfl
    | some w =>
      by_cases hw : w = ""
      · subst hw; rfl
      · by_cases ht : jsTrim w = ""
        · simp [hw, ht, sLength_pos_iff]
        · have hpos : 0 < (jsTrim w).length := (sLength_pos_iff (jsTrim w)).mpr ht
          simp [hw, ht, hpos]
  | some s =>
    by_cases hs : s = ""
    · subst hs
      cases cfg with
      | none => rfl
      | some w =>
        by_cases hw : w = ""
        · subst hw; rfl
        · by_cases ht : jsTrim w = ""
          · simp [hw, ht, sLength_pos_iff]
          · have hpos : 0 < (jsTrim w).length := (sLength_pos_iff (jsTrim w)).mpr ht
            simp [hw, ht, hpos]
    · simp [hs]

/-! ### C1 — mid-stream cancellation is never observed by the execution -/

/-- C1 (code-bug demonstration): `cancelTask` interleaved at the stream
boundary before event 1 publishes its Canceled terminal immediately on the
cancel caller's own bus — and `publishCanceled` deletes the canceled mark
within the same synchronous call, so the execution's boundary check never
sees it.  The execution therefore dispatches the remaining events (the
delta `"Hi"` message and the usage artifact both appear after the cancel)
and still publishes a final Completed terminal, contradicting the claim
that the next dispatch boundary emits Canceled and no Completed follows. -/
theorem c1_midstream_cancel_not_observed :
    (execute ExecSt.empty ⟨"task-1", "ctx-1", [.text "Hi"], false⟩ (fun _ => {})
        (fun _ => none) "/cwd"
        [.turnStarted, .itemCompleted (.agentMessage "item-1" "Hi"), .turnCompleted Jx.null]
        (fun i => if i = 1 then [("task-1", "uuid-1")] else [])).2 =
      (⟨[Pub.taskPub "task-1" "ctx-1",
         publishStatus "task-1" "ctx-1" .working false none (some "state-change"),
         publishStatus "task-1" "ctx-1" .working false none (some "turn-started"),
         publishTextContent "task-1" "ctx-1" "Hi",
         publishToolOutput "task-1" "ctx-1" "turn-usage"
           (stringifyToolOutput (Jx.obj [("usage", Jx.null)])) false true,
         publishStatus "task-1" "ctx-1" .working false none (some "turn-completed"),
         publishStatus "task-1" "ctx-1" .completed true none (some "state-change")],
        true,
        [⟨true, true, true, "live", none, "workspace-write", "on-failure"⟩]⟩,
       [⟨[publishStatus "task-1" "ctx-1" .canceled true
            (some ⟨"task-1", "ctx-1", [.text "Task canceled."]⟩) (some "state-change")],
         true⟩]) := by
  rfl

/-! ### C4 — tool-update dedup counterexample -/

/-- C4 counterexample: an mcp tool call whose completion event carries
neither an error nor a result gets exactly one "started" tool-update but
**no** terminal ("completed"/"failed") tool-update, refuting "exactly one
terminal tool-update per tool-bearing item id". -/
theorem c4_counterexample :
    countToolStarted "m1" (execute ExecSt.empty ⟨"t", "c", [.text "Hi"], false⟩
        (fun _ => {}) (fun _ => none) "/d"
        [.itemCompleted (.mcpToolCall "m1" "completed" "srv" "tool" Jx.null none none)]
        (fun _ => [])).2.1.pubs = 1
    ∧ countToolTerminal "m1" (execute ExecSt.empty ⟨"t", "c", [.text "Hi"], false⟩
        (fun _ => {}) (fun _ => none) "/d"
        [.itemCompleted (.mcpToolCall "m1" "completed" "srv" "tool" Jx.null none none)]
        (fun _ => [])).2.1.pubs = 0 :=
  ⟨rfl, rfl⟩

/-! ### C7 — session affinity on the working-directory binding key -/

/-- With no externally scheduled cancels and the task not marked canceled,
the stream loop never mutates the executor state. -/
theorem runLoop_state_id (st : ExecSt) (taskId contextId : String) (i : Nat)
    (sT : List (String × Nat)) (sS : List (String × String))
    (events : List ThreadEvent)
    (hc : st.canceledTasks.contains taskId = false) :
    (runLoop st taskId contextId (fun _ => []) i sT sS events).1 = st := by
  induction events generalizing i sT sS with
  | nil => rfl
  | cons e rest ih =>
    simp only [runLoop, runCancels, hc]
    by_cases hf : (dispatch taskId contextId sT sS e).failed = true
    · simp [hf]
    · simp [hf]
      exact ih (i + 1) _ _

/-- A normal `execute` (not pre-canceled, non-empty text) on a context id
with no cached thread: the factory is invoked once and the new thread is
stored under the context id with the computed binding key. -/
theorem execute_fresh_context (st : ExecSt) (req : RequestCtx)
    (gc : String → CodexConfigPatch) (gwd : String → Option String) (cwd : String)
    (events : List ThreadEvent)
    (hc : st.canceledTasks.contains req.taskId = false)
    (ht : extractText req.userMessage ≠ "")
    (hfresh : kvGet st.threads req.contextId = none) :
    (execute st req gc gwd cwd events (fun _ => [])).1.threads
        = kvSet st.threads req.contextId st.nextThread
    ∧ (execute st req gc gwd cwd events (fun _ => [])).1.threadWorkingDirs
        = kvSet st.threadWorkingDirs req.contextId
            (req.contextId ++ ":" ++
              bindingWorkingDir (gwd req.contextId)
                (resolveConfig gc req.contextId).workingDirectory cwd)
    ∧ (execute st req gc gwd cwd events (fun _ => [])).1.nextThread = st.nextThread + 1
    ∧ (execute st req gc gwd cwd events (fun _ => [])).1.canceledTasks = st.canceledTasks
    ∧ (execute st req gc gwd cwd events (fun _ => [])).2.1.factoryCalls.length = 1 := by
  have hc2 : ¬ req.taskId ∈ st.canceledTasks := by simpa using hc
  unfold execute
  simp only [hc2, ht, hfresh]
  have hstate := runLoop_state_id
    { st with
        taskContexts := kvSet st.taskContexts req.taskId req.contextId
        nextThread := st.nextThread + 1
        threads := kvSet st.threads req.contextId st.nextThread
        threadWorkingDirs := kvSet st.threadWorkingDirs req.contextId
          (req.contextId ++ ":" ++
            bindingWorkingDir (gwd req.contextId)
              (resolveConfig gc req.contextId).workingDirectory cwd) }
    req.taskId req.contextId 0 [] [] events (by simpa using hc)
  simp [hstate, hc2, ht, hfresh]

/-- A normal `execute` finding a cached thread whose stored binding key
equals the computed one: the cached session is reused, no factory call. -/
theorem execute_same_key (st : ExecSt) (req : RequestCtx)
    (gc : String → CodexConfigPatch) (gwd : String → Option String) (cwd : String)
    (events : List ThreadEvent) (th : Nat)
    (hc : st.canceledTasks.contains req.taskId = false)
    (ht : extractText req.userMessage ≠ "")
    (hth : kvGet st.threads req.contextId = some th)
    (hkey : kvGet st.threadWorkingDirs req.contextId =
      some (req.contextId ++ ":" ++
        bindingWorkingDir (gwd req.contextId)
          (resolveConfig gc req.contextId).workingDirectory cwd)) :
    (execute st req gc gwd cwd events (fun _ => [])).1.threads = st.threads
    ∧ (execute st req gc gwd cwd events (fun _ => [])).1.threadWorkingDirs
        = st.threadWorkingDirs
    ∧ (execute st req gc gwd cwd events (fun _ => [])).1.nextThread = st.nextThread
    ∧ (execute st req gc gwd cwd events (fun _ => [])).1.canceledTasks = st.canceledTasks
    ∧ (execute st req gc gwd cwd events (fun _ => [])).2.1.factoryCalls = [] := by
  have hc2 : ¬ req.taskId ∈ st.canceledTasks := by simpa using hc
  unfold execute
  simp only [hc2, ht, hth, hkey]
  have hstate := runLoop_state_id
    { st with taskContexts := kvSet st.taskContexts req.taskId req.contextId }
    req.taskId req.contextId 0 [] [] events (by simpa using hc)
  simp [hstate, hc2, ht, hth, hkey]

/-- A normal `execute` finding a cached thread whose stored binding key
differs from the computed one: the stale entry is discarded, the factory
is invoked once, and a fresh thread is stored under the new key. -/
theorem execute_stale_key (st : ExecSt) (req : RequestCtx)
    (gc : String → CodexConfigPatch) (gwd : String → Option String) (cwd : String)
    (events : List ThreadEvent) (th : Nat)
    (hc : st.canceledTasks.contains req.taskId = false)
    (ht : extractText req.userMessage ≠ "")
    (hth : kvGet st.threads req.contextId = some th)
    (hkey : kvGet st.threadWorkingDirs req.contextId ≠
      some (req.contextId ++ ":" ++
        bindingWorkingDir (gwd req.contextId)
          (resolveConfig gc req.contextId).workingDirectory cwd)) :
    (execute st req gc gwd cwd events (fun _ => [])).1.threads
        = kvSet (kvDel st.threads req.contextId) req.contextId st.nextThread
    ∧ (execute st req gc gwd cwd events (fun _ => [])).1.nextThread = st.nextThread + 1
    ∧ (execute st req gc gwd cwd events (fun _ => [])).1.canceledTasks = st.canceledTasks
    ∧ (execute st req gc gwd cwd events (fun _ => [])).2.1.factoryCalls.length = 1 := by
  have hc2 : ¬ req.taskId ∈ st.canceledTasks := by simpa using hc
  unfold execute
  simp only [hc2, ht, hth, hkey]
  have hstate := runLoop_state_id
    { st with
        taskContexts := kvSet st.taskContexts req.taskId req.contextId
        nextThread := st.nextThread + 1
        threads := kvSet (kvDel st.threads req.contextId) req.contextId st.nextThread
        threadWorkingDirs := kvSet st.threadWorkingDirs req.contextId
          (req.contextId ++ ":" ++
            bindingWorkingDir (gwd req.contextId)
              (resolveConfig gc req.contextId).workingDirectory cwd) }
    req.taskId req.contextId 0 [] [] events (by simpa using hc)
  simp [hstate, hc2, ht, hth, hkey]

/-- C7: two consecutive executions on the same context id: if the
effective working directory (the binding key) is unchanged, the cached
session is returned and the factory is not invoked; if it differs, the
factory is invoked and a different (fresh) session replaces the cached
one. -/
theorem c7_session_affinity (st0 : ExecSt) (req1 req2 : RequestCtx)
    (gc1 gc2 : String → CodexConfigPatch) (gwd1 gwd2 : String → Option String)
    (cwd1 cwd2 : String) (ev1 ev2 : List ThreadEvent)
    (hctx : req2.contextId = req1.contextId)
    (hfresh : kvGet st0.threads req1.contextId = none)
    (hc1 : st0.canceledTasks.contains req1.taskId = false)
    (hc2 : st0.canceledTasks.contains req2.taskId = false)
    (ht1 : extractText req1.userMessage ≠ "")
    (ht2 : extractText req2.userMessage ≠ "") :
    (bindingWorkingDir (gwd1 req1.contextId)
          (resolveConfig gc1 req1.contextId).workingDirectory cwd1 =
        bindingWorkingDir (gwd2 req2.contextId)
          (resolveConfig gc2 req2.contextId).workingDirectory cwd2 →
      (execute (execute st0 req1 gc1 gwd1 cwd1 ev1 (fun _ => [])).1
          req2 gc2 gwd2 cwd2 ev2 (fun _ => [])).2.1.factoryCalls = []
      ∧ kvGet (execute (execute st0 req1 gc1 gwd1 cwd1 ev1 (fun _ => [])).1
            req2 gc2 gwd2 cwd2 ev2 (fun _ => [])).1.threads req1.contextId =
          kvGet (execute st0 req1 gc1 gwd1 cwd1 ev1 (fun _ => [])).1.threads
            req1.contextId)
    ∧ (bindingWorkingDir (gwd1 req1.contextId)
          (resolveConfig gc1 req1.contextId).workingDirectory cwd1 ≠
        bindingWorkingDir (gwd2 req2.contextId)
          (resolveConfig gc2 req2.contextId).workingDirectory cwd2 →
      (execute (execute st0 req1 gc1 gwd1 cwd1 ev1 (fun _ => [])).1
          req2 gc2 gwd2 cwd2 ev2 (fun _ => [])).2.1.factoryCalls.length = 1
      ∧ kvGet (execute (execute st0 req1 gc1 gwd1 cwd1 ev1 (fun _ => [])).1
            req2 gc2 gwd2 cwd2 ev2 (fun _ => [])).1.threads req1.contextId ≠
          kvGet (execute st0 req1 gc1 gwd1 cwd1 ev1 (fun _ => [])).1.threads
            req1.contextId) := by
  obtain ⟨e1th, e1twd, e1next, e1canc, -⟩ :=
    execute_fresh_context st0 req1 gc1 gwd1 cwd1 ev1 hc1 ht1 hfresh
  have hc2b : (execute st0 req1 gc1 gwd1 cwd1 ev1 (fun _ => [])).1.canceledTasks.contains
      req2.taskId = false := by rw [e1canc]; exact hc2
  have hth2 : kvGet (execute st0 req1 gc1 gwd1 cwd1 ev1 (fun _ => [])).1.threads
      req2.contextId = some st0.nextThread := by
    rw [hctx, e1th, kvGet_kvSet_self]
  have hget1 : kvGet (execute st0 req1 gc1 gwd1 cwd1 ev1 (fun _ => [])).1.threads
      req1.contextId = some st0.nextThread := by
    rw [e1th, kvGet_kvSet_self]
  constructor
  · intro hsame
    have hkey : kvGet (execute st0 req1 gc1 gwd1 cwd1 ev1 (fun _ => [])).1.threadWorkingDirs
        req2.contextId =
        some (req2.contextId ++ ":" ++
          bindingWorkingDir (gwd2 req2.contextId)
            (resolveConfig gc2 req2.contextId).workingDirectory cwd2) := by
      generalize hg : bindingWorkingDir (gwd2 req2.contextId)
        (resolveConfig gc2 req2.contextId).workingDirectory cwd2 = w2 at hsame ⊢
      rw [e1twd, hctx, ← hsame, kvGet_kvSet_self]
    obtain ⟨r2th, -, -, -, r2fc⟩ :=
      execute_same_key (execute st0 req1 gc1 gwd1 cwd1 ev1 (fun _ => [])).1 req2
        gc2 gwd2 cwd2 ev2 st0.nextThread hc2b ht2 hth2 hkey
    exact ⟨r2fc, by rw [r2th]⟩
  · intro hdiff
    have hkey : kvGet (execute st0 req1 gc1 gwd1 cwd1 ev1 (fun _ => [])).1.threadWorkingDirs
        req2.contextId ≠
        some (req2.contextId ++ ":" ++
          bindingWorkingDir (gwd2 req2.contextId)
            (resolveConfig gc2 req2.contextId).workingDirectory cwd2) := by
      generalize hg2 : bindingWorkingDir (gwd2 req2.contextId)
        (resolveConfig gc2 req2.contextId).workingDirectory cwd2 = w2 at hdiff ⊢
      generalize hg1 : bindingWorkingDir (gwd1 req1.contextId)
        (resolveConfig gc1 req1.contextId).workingDirectory cwd1 = w1 at hdiff e1twd ⊢
      rw [e1twd, hctx, kvGet_kvSet_self]
      intro h
      exact hdiff (sAppend_right_inj (req1.contextId ++ ":") w1 w2 (Option.some.inj h))
    obtain ⟨r2th, r2next, -, r2fc⟩ :=
      execute_stale_key (execute st0 req1 gc1 gwd1 cwd1 ev1 (fun _ => [])).1 req2
        gc2 gwd2 cwd2 ev2 st0.nextThread hc2b ht2 hth2 hkey
    refine ⟨r2fc, ?_⟩
    rw [r2th, e1next, hctx, kvGet_kvSet_self, hget1]
    intro h
    have := Option.some.inj h
    omega

theorem c7_witness :
    (("c" : String) = "c") ∧ kvGet (ExecSt.empty).threads "c" = none ∧
    (ExecSt.empty).canceledTasks.contains "t1" = false ∧
    (ExecSt.empty).canceledTasks.contains "t2" = false ∧
    extractText [.text "a"] ≠ "" ∧ extractText [.text "b"] ≠ "" ∧
    ((bindingWorkingDir ((fun _ => none) ("c" : String))
          (resolveConfig (fun _ => {}) "c").workingDirectory "/d" =
        bindingWorkingDir ((fun _ => some "/other") ("c" : String))
          (resolveConfig (fun _ => {}) "c").workingDirectory "/d" →
      (execute (execute ExecSt.empty ⟨"t1", "c", [.text "a"], false⟩ (fun _ => {})
          (fun _ => none) "/d" [] (fun _ => [])).1
          ⟨"t2", "c", [.text "b"], false⟩ (fun _ => {}) (fun _ => some "/other") "/d" []
          (fun _ => [])).2.1.factoryCalls = []
      ∧ kvGet (execute (execute ExecSt.empty ⟨"t1", "c", [.text "a"], false⟩ (fun _ => {})
            (fun _ => none) "/d" [] (fun _ => [])).1
            ⟨"t2", "c", [.text "b"], false⟩ (fun _ => {}) (fun _ => some "/other") "/d" []
            (fun _ => [])).1.threads "c" =
          kvGet (execute ExecSt.empty ⟨"t1", "c", [.text "a"], false⟩ (fun _ => {})
            (fun _ => none) "/d" [] (fun _ => [])).1.threads "c")
    ∧ (bindingWorkingDir ((fun _ => none) ("c" : String))
          (resolveConfig (fun _ => {}) "c").workingDirectory "/d" ≠
        bindingWorkingDir ((fun _ => some "/other") ("c" : String))
          (resolveConfig (fun _ => {}) "c").workingDirectory "/d" →
      (execute (execute ExecSt.empty ⟨"t1", "c", [.text "a"], false⟩ (fun _ => {})
          (fun _ => none) "/d" [] (fun _ => [])).1
          ⟨"t2", "c", [.text "b"], false⟩ (fun _ => {}) (fun _ => some "/other") "/d" []
          (fun _ => [])).2.1.factoryCalls.length = 1
      ∧ kvGet (execute (execute ExecSt.empty ⟨"t1", "c", [.text "a"], false⟩ (fun _ => {})
            (fun _ => none) "/d" [] (fun _ => [])).1
            ⟨"t2", "c", [.text "b"], false⟩ (fun _ => {}) (fun _ => some "/other") "/d" []
            (fun _ => [])).1.threads "c" ≠
          kvGet (execute ExecSt.empty ⟨"t1", "c", [.text "a"], false⟩ (fun _ => {})
            (fun _ => none) "/d" [] (fun _ => [])).1.threads "c")) :=
  ⟨rfl, rfl, rfl, rfl, by decide, by decide,
    c7_session_affinity ExecSt.empty ⟨"t1", "c", [.text "a"], false⟩
      ⟨"t2", "c", [.text "b"], false⟩ (fun _ => {}) (fun _ => {})
      (fun _ => none) (fun _ => some "/other") "/d" "/d" [] []
      rfl rfl rfl rfl (by decide) (by decide)⟩

/-! ### C4 — exactly-once tool updates: counting infrastructure -/

theorem sAppend_left_inj (a b c : String) (h : a ++ c = b ++ c) : a = b := by
  apply String.ext
  have := congrArg String.data h
  simp only [String.data_append] at this
  exact List.append_cancel_right this

/-- Does this item write the lifecycle key `x ++ ":state"` (a
command-execution or mcp-tool-call item with id `x`)? -/
def itemTouchesState (x : String) : Item → Bool
  | .commandExecution id _ _ _ _ => id == x
  | .mcpToolCall id _ _ _ _ _ _ => id == x
  | _ => false

/-- Events whose item writes the lifecycle key `x ++ ":state"`. -/
def touchesToolState (x : String) : ThreadEvent → Bool
  | .itemStarted it | .itemUpdated it | .itemCompleted it => itemTouchesState x it
  | _ => false

/-- Is this event the completion of the tool-bearing item `x`? -/
def isCompletedToolFor (x : String) : ThreadEvent → Bool
  | .itemCompleted (.commandExecution id _ _ _ _) => id == x
  | .itemCompleted (.mcpToolCall id _ _ _ _ _ _) => id == x
  | _ => false

/-- Would this completion event publish a terminal tool-update when it is
the first effective completion?  Command completions always do; mcp
completions only when an error or a result is present. -/
def terminalTrigger : ThreadEvent → Bool
  | .itemCompleted (.commandExecution _ _ _ _ _) => true
  | .itemCompleted (.mcpToolCall _ _ _ _ _ error result) => error.isSome || result.isSome
  | _ => false

def isTurnFailedEv : ThreadEvent → Bool
  | .turnFailed _ => true
  | _ => false

/-- The number of terminal tool-updates for `x` an uninterrupted run of
the stream publishes: decided by the first completion event for `x`. -/
def expectedTerminal (x : String) (events : List ThreadEvent) : Nat :=
  match events.find? (isCompletedToolFor x) with
  | some e => if terminalTrigger e then 1 else 0
  | none => 0

/-- The concatenated per-event publishes of the stream loop; the loop with
no cancellation and no `turn.failed` publishes exactly this plus the final
Completed status. -/
def loopPubs (taskId contextId : String) (sentText : List (String × Nat))
    (sentState : List (String × String)) : List ThreadEvent → List Pub
  | [] => []
  | e :: rest =>
    let d := dispatch taskId contextId sentText sentState e
    d.pubs ++ loopPubs taskId contextId d.sentText d.sentState rest

theorem handleItem_failed (taskId contextId : String) (sT : List (String × Nat))
    (sS : List (String × String)) (it : Item) (isCompleted : Bool) :
    (handleItem taskId contextId sT sS it isCompleted).failed = false := by
  cases it <;> simp only [handleItem] <;> (repeat' split) <;> rfl

theorem dispatch_failed (taskId contextId : String) (sT : List (String × Nat))
    (sS : List (String × String)) (e : ThreadEvent) :
    (dispatch taskId contextId sT sS e).failed = isTurnFailedEv e := by
  cases e <;> first
    | rfl
    | (rename_i it; simp only [dispatch, isTurnFailedEv, handleItem_failed])

theorem runLoop_pubs_no_cancel (st : ExecSt) (taskId contextId : String) (i : Nat)
    (sT : List (String × Nat)) (sS : List (String × String))
    (events : List ThreadEvent)
    (hc : st.canceledTasks.contains taskId = false)
    (hnf : ∀ e ∈ events, isTurnFailedEv e = false) :
    (runLoop st taskId contextId (fun _ => []) i sT sS events).2.1 =
      loopPubs taskId contextId sT sS events ++
        [publishStatus taskId contextId .completed true none (some "state-change")] := by
  induction events generalizing i sT sS with
  | nil => rfl
  | cons e rest ih =>
    have hf : (dispatch taskId contextId sT sS e).failed = false := by
      rw [dispatch_failed]
      exact hnf e (List.mem_cons_self e rest)
    simp only [runLoop, runCancels, hc, loopPubs]
    simp only [Bool.false_eq_true, if_false, hf]
    rw [ih (i + 1) _ _ (fun e2 h2 => hnf e2 (List.mem_cons_of_mem e h2))]
    simp

/-- An item that does not write `x`'s lifecycle key contributes no
started/terminal tool-update for `x` and leaves the key's value intact. -/
theorem handleItem_counts_other (taskId contextId x : String)
    (sT : List (String × Nat)) (sS : List (String × String)) (it : Item)
    (isCompleted : Bool) (hnt : itemTouchesState x it = false) :
    countToolStarted x (handleItem taskId contextId sT sS it isCompleted).pubs = 0
    ∧ countToolTerminal x (handleItem taskId contextId sT sS it isCompleted).pubs = 0
    ∧ kvGet (handleItem taskId contextId sT sS it isCompleted).sentState (x ++ ":state")
        = kvGet sS (x ++ ":state") := by
  cases it with
  | commandExecution id s c a ec =>
    have hid : ¬ id = x := by simpa [itemTouchesState] using hnt
    have hkey : (id ++ ":state") ≠ (x ++ ":state") := fun h => hid (sAppend_left_inj _ _ _ h)
    simp only [handleItem]
    repeat' split
    all_goals
      simp_all [countToolStarted, countToolTerminal, isToolStartedFor, isToolTerminalFor,
        publishToolUpdate, publishToolOutput, publishStatus, kvGet_kvSet_ne _ _ _ _ hkey]
  | mcpToolCall id s sv tl args error result =>
    have hid : ¬ id = x := by simpa [itemTouchesState] using hnt
    have hkey : (id ++ ":state") ≠ (x ++ ":state") := fun h => hid (sAppend_left_inj _ _ _ h)
    simp only [handleItem]
    repeat' split
    all_goals
      simp_all [countToolStarted, countToolTerminal, isToolStartedFor, isToolTerminalFor,
        publishToolUpdate, publishToolOutput, publishStatus, kvGet_kvSet_ne _ _ _ _ hkey]
  | agentMessage id t =>
    simp only [handleItem]
    repeat' split
    all_goals
      simp [countToolStarted, countToolTerminal, isToolStartedFor, isToolTerminalFor,
        publishTextContent, publishStatus]
  | reasoning id t =>
    simp only [handleItem]
    repeat' split
    all_goals
      simp [countToolStarted, countToolTerminal, isToolStartedFor, isToolTerminalFor,
        publishThought, publishStatus]
  | fileChange id s ch =>
    simp only [handleItem]
    repeat' split
    all_goals
      simp [countToolStarted, countToolTerminal, isToolStartedFor, isToolTerminalFor,
        publishToolUpdate, publishToolOutput, publishStatus]
  | webSearch id q =>
    simp [handleItem, countToolStarted, countToolTerminal, isToolStartedFor,
      isToolTerminalFor, publishToolUpdate, publishStatus]
  | todoList id items =>
    simp [handleItem, countToolStarted, countToolTerminal, isToolStartedFor,
      isToolTerminalFor, publishToolUpdate, publishToolOutput, publishStatus]
  | errorItem m =>
    simp [handleItem, countToolStarted, countToolTerminal, isToolStartedFor,
      isToolTerminalFor, publishTextContent, publishStatus]
  | otherItem id =>
    simp [handleItem, countToolStarted, countToolTerminal]

/-- An event that does not write `x`'s lifecycle key contributes no
started/terminal tool-update for `x` and leaves the key's value intact. -/
theorem dispatch_counts_other (taskId contextId x : String)
    (sT : List (String × Nat)) (sS : List (String × String)) (e : ThreadEvent)
    (hnt : touchesToolState x e = false) :
    countToolStarted x (dispatch taskId contextId sT sS e).pubs = 0
    ∧ countToolTerminal x (dispatch taskId contextId sT sS e).pubs = 0
    ∧ kvGet (dispatch taskId contextId sT sS e).sentState (x ++ ":state")
        = kvGet sS (x ++ ":state") := by
  cases e with
  | turnStarted =>
    exact ⟨rfl, rfl, rfl⟩
  | turnCompleted u =>
    exact ⟨rfl, rfl, rfl⟩
  | turnFailed m =>
    exact ⟨rfl, rfl, rfl⟩
  | itemStarted it =>
    exact handleItem_counts_other taskId contextId x sT sS it false
      (by simpa [touchesToolState] using hnt)
  | itemUpdated it =>
    exact handleItem_counts_other taskId contextId x sT sS it false
      (by simpa [touchesToolState] using hnt)
  | itemCompleted it =>
    exact handleItem_counts_other taskId contextId x sT sS it true
      (by simpa [touchesToolState] using hnt)

/-- A command-execution item with id `x`: one started tool-update on first
sighting, one terminal on the first completion, and the lifecycle-key
transition, as functions of the previous key value. -/
theorem handleItem_counts_command (taskId contextId x : String)
    (sT : List (String × Nat)) (sS : List (String × String))
    (s c a : String) (ec : Option Int) (isCompleted : Bool) :
    countToolStarted x
        (handleItem taskId contextId sT sS (.commandExecution x s c a ec) isCompleted).pubs
      = (if kvGet sS (x ++ ":state") = none then 1 else 0)
    ∧ countToolTerminal x
        (handleItem taskId contextId sT sS (.commandExecution x s c a ec) isCompleted).pubs
      = (if isCompleted ∧ kvGet sS (x ++ ":state") ≠ some "completed" then 1 else 0)
    ∧ kvGet (handleItem taskId contextId sT sS (.commandExecution x s c a ec)
          isCompleted).sentState (x ++ ":state")
      = (if isCompleted ∧ kvGet sS (x ++ ":state") ≠ some "completed"
          then some "completed"
          else if kvGet sS (x ++ ":state") = none then some "started"
          else kvGet sS (x ++ ":state")) := by
  simp only [handleItem]
  repeat' split
  all_goals
    simp_all [countToolStarted, countToolTerminal, isToolStartedFor, isToolTerminalFor,
      publishToolUpdate, publishToolOutput, publishStatus, kvGet_kvSet_self]

/-- An mcp-tool-call item with id `x`: one started tool-update on first
sighting; on the first completion, one terminal tool-update when an error
or a result is present and none otherwise (the key is still marked
completed). -/
theorem handleItem_counts_mcp (taskId contextId x : String)
    (sT : List (String × Nat)) (sS : List (String × String))
    (s sv tl : String) (args : Jx) (error : Option String) (result : Option Jx)
    (isCompleted : Bool) :
    countToolStarted x
        (handleItem taskId contextId sT sS (.mcpToolCall x s sv tl args error result)
          isCompleted).pubs
      = (if kvGet sS (x ++ ":state") = none then 1 else 0)
    ∧ countToolTerminal x
        (handleItem taskId contextId sT sS (.mcpToolCall x s sv tl args error result)
          isCompleted).pubs
      = (if isCompleted ∧ kvGet sS (x ++ ":state") ≠ some "completed"
          then (if error.isSome || result.isSome then 1 else 0) else 0)
    ∧ kvGet (handleItem taskId contextId sT sS (.mcpToolCall x s sv tl args error result)
          isCompleted).sentState (x ++ ":state")
      = (if isCompleted ∧ kvGet sS (x ++ ":state") ≠ some "completed"
          then some "completed"
          else if kvGet sS (x ++ ":state") = none then some "started"
          else kvGet sS (x ++ ":state")) := by
  simp only [handleItem]
  repeat' split
  all_goals
    simp_all [countToolStarted, countToolTerminal, isToolStartedFor, isToolTerminalFor,
      publishToolUpdate, publishToolOutput, publishStatus, kvGet_kvSet_self]

theorem isCompletedToolFor_touches (x : String) (e : ThreadEvent)
    (h : isCompletedToolFor x e = true) : touchesToolState x e = true := by
  cases e <;> simp_all [isCompletedToolFor, touchesToolState]
  rename_i it
  cases it <;> simp_all [itemTouchesState]

/-- Does a first effective completion of this item publish a terminal
tool-update?  (Command executions always; mcp only with error/result.) -/
def itemTrigger : Item → Bool
  | .commandExecution _ _ _ _ _ => true
  | .mcpToolCall _ _ _ _ _ error result => error.isSome || result.isSome
  | _ => false

/-- Uniform counting behaviour of an item that writes `x`'s lifecycle
key. -/
theorem handleItem_counts_touch (taskId contextId x : String)
    (sT : List (String × Nat)) (sS : List (String × String)) (it : Item)
    (isCompleted : Bool) (hti : itemTouchesState x it = true) :
    countToolStarted x (handleItem taskId contextId sT sS it isCompleted).pubs
      = (if kvGet sS (x ++ ":state") = none then 1 else 0)
    ∧ countToolTerminal x (handleItem taskId contextId sT sS it isCompleted).pubs
      = (if isCompleted ∧ kvGet sS (x ++ ":state") ≠ some "completed"
          then (if itemTrigger it then 1 else 0) else 0)
    ∧ kvGet (handleItem taskId contextId sT sS it isCompleted).sentState (x ++ ":state")
      = (if isCompleted ∧ kvGet sS (x ++ ":state") ≠ some "completed"
          then some "completed"
          else if kvGet sS (x ++ ":state") = none then some "started"
          else kvGet sS (x ++ ":state")) := by
  cases it with
  | commandExecution id s c a ec =>
    have hid : id = x := by simpa [itemTouchesState] using hti
    subst hid
    obtain ⟨h1, h2, h3⟩ := handleItem_counts_command taskId contextId id sT sS s c a ec
      isCompleted
    exact ⟨h1, by simpa [itemTrigger] using h2, h3⟩
  | mcpToolCall id s sv tl args error result =>
    have hid : id = x := by simpa [itemTouchesState] using hti
    subst hid
    obtain ⟨h1, h2, h3⟩ := handleItem_counts_mcp taskId contextId id sT sS s sv tl args
      error result isCompleted
    exact ⟨h1, by simpa [itemTrigger] using h2, h3⟩
  | agentMessage id t => simp [itemTouchesState] at hti
  | reasoning id t => simp [itemTouchesState] at hti
  | fileChange id s ch => simp [itemTouchesState] at hti
  | webSearch id q => simp [itemTouchesState] at hti
  | todoList id items => simp [itemTouchesState] at hti
  | errorItem m => simp [itemTouchesState] at hti
  | otherItem id => simp [itemTouchesState] at hti

theorem countToolStarted_append (x : String) (a b : List Pub) :
    countToolStarted x (a ++ b) = countToolStarted x a + countToolStarted x b :=
  List.countP_append _ _ _

theorem countToolTerminal_append (x : String) (a b : List Pub) :
    countToolTerminal x (a ++ b) = countToolTerminal x a + countToolTerminal x b :=
  List.countP_append _ _ _

theorem expectedTerminal_cons_neg (x : String) (e : ThreadEvent)
    (rest : List ThreadEvent) (h : isCompletedToolFor x e = false) :
    expectedTerminal x (e :: rest) = expectedTerminal x rest := by
  simp [expectedTerminal, List.find?_cons, h]

theorem expectedTerminal_cons_pos (x : String) (e : ThreadEvent)
    (rest : List ThreadEvent) (h : isCompletedToolFor x e = true) :
    expectedTerminal x (e :: rest) = if terminalTrigger e then 1 else 0 := by
  simp [expectedTerminal, List.find?_cons, h]

/-- Counting master: over the concatenated per-event publishes of a
stream, the number of started tool-updates for `x` is one exactly when the
lifecycle key starts unset and some event touches `x`, and the number of
terminal tool-updates is decided by the first completion event for `x`. -/
theorem loopPubs_tool_counts (taskId contextId x : String) :
    ∀ (events : List ThreadEvent) (sT : List (String × Nat))
      (sS : List (String × String)),
    countToolStarted x (loopPubs taskId contextId sT sS events) =
      (if kvGet sS (x ++ ":state") = none ∧ events.any (touchesToolState x) then 1 else 0)
    ∧ countToolTerminal x (loopPubs taskId contextId sT sS events) =
      (if kvGet sS (x ++ ":state") = some "completed" then 0
       else expectedTerminal x events) := by
  intro events
  induction events with
  | nil =>
    intro sT sS
    refine ⟨by simp [loopPubs, countToolStarted], ?_⟩
    simp [loopPubs, countToolTerminal, expectedTerminal]
  | cons e rest ih =>
    intro sT sS
    obtain ⟨ih1, ih2⟩ := ih (dispatch taskId contextId sT sS e).sentText
      (dispatch taskId contextId sT sS e).sentState
    have hsplit : loopPubs taskId contextId sT sS (e :: rest) =
        (dispatch taskId contextId sT sS e).pubs ++
        loopPubs taskId contextId (dispatch taskId contextId sT sS e).sentText
          (dispatch taskId contextId sT sS e).sentState rest := rfl
    by_cases htc : touchesToolState x e = true
    · have hitem : ∃ it isCompleted,
          dispatch taskId contextId sT sS e = handleItem taskId contextId sT sS it isCompleted
          ∧ itemTouchesState x it = true
          ∧ isCompletedToolFor x e = (isCompleted && itemTouchesState x it)
          ∧ (isCompletedToolFor x e = true → terminalTrigger e = itemTrigger it) := by
        cases e with
        | turnStarted => exact absurd htc (by simp [touchesToolState])
        | turnCompleted u => exact absurd htc (by simp [touchesToolState])
        | turnFailed m => exact absurd htc (by simp [touchesToolState])
        | itemStarted it =>
          exact ⟨it, false, rfl, htc, by cases it <;> rfl,
            fun h => absurd h (by simp [isCompletedToolFor])⟩
        | itemUpdated it =>
          exact ⟨it, false, rfl, htc, by cases it <;> rfl,
            fun h => absurd h (by simp [isCompletedToolFor])⟩
        | itemCompleted it =>
          exact ⟨it, true, rfl, htc, by cases it <;> rfl, fun _ => by cases it <;> rfl⟩
      obtain ⟨it, isC, hd, hti, hcompl, htrig⟩ := hitem
      obtain ⟨h1, h2, h3⟩ := handleItem_counts_touch taskId contextId x sT sS it isC hti
      rw [hd] at ih1 ih2
      rw [h3] at ih1 ih2
      constructor
      · rw [hsplit, countToolStarted_append, hd, h1, ih1]
        simp only [List.any_cons, htc, Bool.true_or]
        clear ih hd h1 h2 h3 ih1 ih2 hcompl htrig hti htc hsplit
        generalize kvGet sS (x ++ ":state") = s0
        rcases s0 with _ | v <;> rcases isC <;> split_ifs <;> simp_all
      · rw [hsplit, countToolTerminal_append, hd, h2, ih2]
        rw [hti, Bool.and_true] at hcompl
        by_cases hic : isC = true
        · subst hic
          rw [expectedTerminal_cons_pos x e rest (by rw [hcompl]),
            htrig (by rw [hcompl])]
          clear ih hd h1 h2 h3 ih1 ih2 hcompl hti htc hsplit
          generalize kvGet sS (x ++ ":state") = s0
          generalize (itemTrigger it : Bool) = tg
          rcases s0 with _ | v <;> rcases tg <;> split_ifs <;> simp_all
        · have hicf : isC = false := by simpa using hic
          subst hicf
          rw [expectedTerminal_cons_neg x e rest (by rw [hcompl])]
          clear ih hd h1 h2 h3 ih1 ih2 hcompl htrig hti htc hsplit
          generalize kvGet sS (x ++ ":state") = s0
          generalize expectedTerminal x rest = et
          rcases s0 with _ | v <;> split_ifs <;> simp_all
    · have htcf : touchesToolState x e = false := by simpa using htc
      obtain ⟨h1, h2, h3⟩ := dispatch_counts_other taskId contextId x sT sS e htcf
      rw [h3] at ih1 ih2
      have hncf : isCompletedToolFor x e = false := by
        cases hcf : isCompletedToolFor x e
        · rfl
        · exact absurd (isCompletedToolFor_touches x e hcf) (by simp [htcf])
      constructor
      · rw [hsplit, countToolStarted_append, h1, ih1]
        simp [List.any_cons, htcf]
      · rw [hsplit, countToolTerminal_append, h2, ih2,
          expectedTerminal_cons_neg x e rest hncf]
        simp

/-- C4 amended: in one uninterrupted execution (no cancellation, no
`turn.failed`), for every tool-bearing item id `x`: exactly one "started"
tool-update is published when any event for `x` occurs (none otherwise),
and the number of terminal tool-updates is decided by the first
`item.completed` for `x` — one for a command execution, one for an mcp
tool call carrying an error or a result, zero for an mcp completion with
neither (and zero when `x` never completes). -/
theorem c4_tool_update_counts (st : ExecSt) (req : RequestCtx)
    (gc : String → CodexConfigPatch) (gwd : String → Option String) (cwd : String)
    (events : List ThreadEvent) (x : String)
    (hc : st.canceledTasks.contains req.taskId = false)
    (ht : extractText req.userMessage ≠ "")
    (hnf : ∀ e ∈ events, isTurnFailedEv e = false) :
    countToolStarted x (execute st req gc gwd cwd events (fun _ => [])).2.1.pubs =
      (if events.any (touchesToolState x) then 1 else 0)
    ∧ countToolTerminal x (execute st req gc gwd cwd events (fun _ => [])).2.1.pubs =
      expectedTerminal x events := by
  have hc2 : ¬ req.taskId ∈ st.canceledTasks := by simpa using hc
  obtain ⟨m1, m2⟩ := loopPubs_tool_counts req.taskId req.contextId x events [] []
  have hkv : kvGet ([] : List (String × String)) (x ++ ":state") = none := rfl
  rw [hkv] at m1 m2
  simp only [reduceCtorEq, if_false, true_and] at m1 m2
  have hcond1 : (st.canceledTasks.contains req.taskId = true) = False := by simp [hc2]
  have hcond2 : (extractText req.userMessage = "") = False := by simp [ht]
  constructor
  · rw [← m1]
    unfold execute
    simp only [hcond1, hcond2, if_false]
    repeat' split
    all_goals
      (rw [runLoop_pubs_no_cancel]
       · simp only [countToolStarted_append]
         have ha : countToolStarted x ([] : List Pub) = 0 := rfl
         have hb : countToolStarted x [Pub.taskPub req.taskId req.contextId] = 0 := rfl
         have hw : countToolStarted x [publishStatus req.taskId req.contextId
           TState.working false none (some "state-change")] = 0 := rfl
         have hd : countToolStarted x [publishStatus req.taskId req.contextId
           TState.completed true none (some "state-change")] = 0 := rfl
         omega
       · exact hc
       · exact hnf)
  · rw [← m2]
    unfold execute
    simp only [hcond1, hcond2, if_false]
    repeat' split
    all_goals
      (rw [runLoop_pubs_no_cancel]
       · simp only [countToolTerminal_append]
         have ha : countToolTerminal x ([] : List Pub) = 0 := rfl
         have hb : countToolTerminal x [Pub.taskPub req.taskId req.contextId] = 0 := rfl
         have hw : countToolTerminal x [publishStatus req.taskId req.contextId
           TState.working false none (some "state-change")] = 0 := rfl
         have hd : countToolTerminal x [publishStatus req.taskId req.contextId
           TState.completed true none (some "state-change")] = 0 := rfl
         omega
       · exact hc
       · exact hnf)

theorem c4_witness :
    (ExecSt.empty.canceledTasks.contains "t" = false) ∧ extractText [.text "go"] ≠ "" ∧
    (∀ e ∈ [ThreadEvent.itemStarted (.commandExecution "c1" "in_progress" "ls" "" none),
            ThreadEvent.itemCompleted (.commandExecution "c1" "completed" "ls" "out"
              (some 0))], isTurnFailedEv e = false) ∧
    (countToolStarted "c1" (execute ExecSt.empty ⟨"t", "c", [.text "go"], false⟩
        (fun _ => {}) (fun _ => none) "/d"
        [ThreadEvent.itemStarted (.commandExecution "c1" "in_progress" "ls" "" none),
         ThreadEvent.itemCompleted (.commandExecution "c1" "completed" "ls" "out" (some 0))]
        (fun _ => [])).2.1.pubs =
      (if ([ThreadEvent.itemStarted (.commandExecution "c1" "in_progress" "ls" "" none),
            ThreadEvent.itemCompleted (.commandExecution "c1" "completed" "ls" "out"
              (some 0))].any (touchesToolState "c1")) then 1 else 0)
    ∧ countToolTerminal "c1" (execute ExecSt.empty ⟨"t", "c", [.text "go"], false⟩
        (fun _ => {}) (fun _ => none) "/d"
        [ThreadEvent.itemStarted (.commandExecution "c1" "in_progress" "ls" "" none),
         ThreadEvent.itemCompleted (.commandExecution "c1" "completed" "ls" "out" (some 0))]
        (fun _ => [])).2.1.pubs =
      expectedTerminal "c1"
        [ThreadEvent.itemStarted (.commandExecution "c1" "in_progress" "ls" "" none),
         ThreadEvent.itemCompleted (.commandExecution "c1" "completed" "ls" "out"
           (some 0))]) :=
  ⟨rfl, by decide, by decide,
    c4_tool_update_counts ExecSt.empty ⟨"t", "c", [.text "go"], false⟩
      (fun _ => {}) (fun _ => none) "/d"
      [ThreadEvent.itemStarted (.commandExecution "c1" "in_progress" "ls" "" none),
       ThreadEvent.itemCompleted (.commandExecution "c1" "completed" "ls" "out" (some 0))]
      "c1" rfl (by decide) (by decide)⟩

/-! ### C3 — delta concatenation for monotonically growing items -/

/-- Does processing this item read or write the sent-length key `x`
(agent message / reasoning with id `x`, or a command execution whose
output key `id ++ ":output"` is `x`)? -/
def itemTouchesText (x : String) : Item → Bool
  | .agentMessage id _ => id == x
  | .reasoning id _ => id == x
  | .commandExecution id _ _ _ _ => (id ++ ":output") == x
  | _ => false

/-- Events whose item reads or writes the sent-length key `x`. -/
def touchesTextKey (x : String) : ThreadEvent → Bool
  | .itemStarted it | .itemUpdated it | .itemCompleted it => itemTouchesText x it
  | _ => false

/-- The observed text of item `x` in this item, tagged with whether the
item is a reasoning item. -/
def itemText (x : String) : Item → Option (Bool × String)
  | .agentMessage id t => if id == x then some (false, t) else none
  | .reasoning id t => if id == x then some (true, t) else none
  | _ => none

/-- The observed text of item `x` in this event. -/
def eventText (x : String) : ThreadEvent → Option (Bool × String)
  | .itemStarted it | .itemUpdated it | .itemCompleted it => itemText x it
  | _ => none

/-- The texts observed for item `x` over the stream, in order, each
tagged with whether it came from a reasoning item. -/
def textsFor (x : String) (events : List ThreadEvent) : List (Bool × String) :=
  events.filterMap (eventText x)

/-- The Working message publishing one delta: `thought`-tagged data part
for reasoning, `text-content`-tagged text part otherwise. -/
def deltaMsgPub (taskId contextId : String) : Bool × String → Pub
  | (true, d) => publishThought taskId contextId d
  | (false, d) => publishTextContent taskId contextId d

/-- Concatenation of a list of strings in order. -/
def strConcat (l : List String) : String := l.foldr (· ++ ·) ""

/-- The publishes contributed, by provenance, by the events that touch
item `x`'s sent-length key: a replay of `dispatch` keeping only those
events' output. -/
def deltaPubsFor (taskId contextId x : String) :
    List (String × Nat) → List (String × String) → List ThreadEvent → List Pub
  | _, _, [] => []
  | sT, sS, e :: rest =>
    let d := dispatch taskId contextId sT sS e
    (if touchesTextKey x e then d.pubs else []) ++
      deltaPubsFor taskId contextId x d.sentText d.sentState rest

theorem eventText_isSome_touches (x : String) (e : ThreadEvent)
    (h : (eventText x e).isSome = true) : touchesTextKey x e = true := by
  cases e <;> simp_all [eventText, touchesTextKey]
  all_goals
    (rename_i it; cases it <;> simp_all [itemText, itemTouchesText])

/-- An event that does not touch `x`'s sent-length key leaves its value
intact. -/
theorem dispatch_text_other (taskId contextId x : String)
    (sT : List (String × Nat)) (sS : List (String × String)) (e : ThreadEvent)
    (hnt : touchesTextKey x e = false) :
    kvGet (dispatch taskId contextId sT sS e).sentText x = kvGet sT x := by
  have hitem : ∀ (it : Item) (isC : Bool), itemTouchesText x it = false →
      kvGet (handleItem taskId contextId sT sS it isC).sentText x = kvGet sT x := by
    intro it isC hni
    cases it with
    | agentMessage id t =>
      have hid : ¬ id = x := by simpa [itemTouchesText] using hni
      simp only [handleItem]
      repeat' split
      all_goals simp_all [kvGet_kvSet_ne _ _ _ _ hid]
    | reasoning id t =>
      have hid : ¬ id = x := by simpa [itemTouchesText] using hni
      simp only [handleItem]
      repeat' split
      all_goals simp_all [kvGet_kvSet_ne _ _ _ _ hid]
    | commandExecution id s c a ec =>
      have hid : ¬ (id ++ ":output") = x := by simpa [itemTouchesText] using hni
      simp only [handleItem]
      repeat' split
      all_goals simp_all [kvGet_kvSet_ne _ _ _ _ hid]
    | mcpToolCall id s sv tl args error result =>
      simp only [handleItem]
      repeat' split
      all_goals rfl
    | fileChange id s ch =>
      simp only [handleItem]
      repeat' split
      all_goals rfl
    | webSearch id q => rfl
    | todoList id items => rfl
    | errorItem m => rfl
    | otherItem id => rfl
  cases e with
  | turnStarted => rfl
  | turnCompleted u => rfl
  | turnFailed m => rfl
  | itemStarted it => exact hitem it false (by simpa [touchesTextKey] using hnt)
  | itemUpdated it => exact hitem it false (by simpa [touchesTextKey] using hnt)
  | itemCompleted it => exact hitem it true (by simpa [touchesTextKey] using hnt)

/-- An event observing text `t` for item `x` publishes exactly the
non-empty delta (and records the new length), or nothing. -/
theorem dispatch_text_self (taskId contextId x : String)
    (sT : List (String × Nat)) (sS : List (String × String)) (e : ThreadEvent)
    (r : Bool) (t : String) (he : eventText x e = some (r, t)) :
    (dispatch taskId contextId sT sS e).sentText =
      (if t ≠ "" ∧ (t.drop ((kvGet sT x).getD 0)).length > 0
        then kvSet sT x t.length else sT)
    ∧ (dispatch taskId contextId sT sS e).pubs =
      (if t ≠ "" ∧ (t.drop ((kvGet sT x).getD 0)).length > 0
        then [deltaMsgPub taskId contextId (r, t.drop ((kvGet sT x).getD 0))] else []) := by
  have hitem : ∀ (it : Item) (isC : Bool), itemText x it = some (r, t) →
      (handleItem taskId contextId sT sS it isC).sentText =
        (if t ≠ "" ∧ (t.drop ((kvGet sT x).getD 0)).length > 0
          then kvSet sT x t.length else sT)
      ∧ (handleItem taskId contextId sT sS it isC).pubs =
        (if t ≠ "" ∧ (t.drop ((kvGet sT x).getD 0)).length > 0
          then [deltaMsgPub taskId contextId (r, t.drop ((kvGet sT x).getD 0))] else []) := by
    intro it isC hi
    cases it with
    | agentMessage id tt =>
      have hid : id = x := by
        by_contra hco
        simp [itemText, hco] at hi
      subst hid
      have hpair : (false, tt) = (r, t) := by simpa [itemText] using hi
      rw [Prod.mk.injEq] at hpair
      obtain ⟨hr, htt⟩ := hpair
      subst hr; subst htt
      simp only [handleItem, deltaMsgPub]
      by_cases h0 : tt = ""
      · simp [h0]
      · by_cases hd : (tt.drop ((kvGet sT id).getD 0)).length > 0
        · simp [h0, hd]
        · simp [h0, hd]
    | reasoning id tt =>
      have hid : id = x := by
        by_contra hco
        simp [itemText, hco] at hi
      subst hid
      have hpair : (true, tt) = (r, t) := by simpa [itemText] using hi
      rw [Prod.mk.injEq] at hpair
      obtain ⟨hr, htt⟩ := hpair
      subst hr; subst htt
      simp only [handleItem, deltaMsgPub]
      by_cases h0 : tt = ""
      · simp [h0]
      · by_cases hd : (tt.drop ((kvGet sT id).getD 0)).length > 0
        · simp [h0, hd]
        · simp [h0, hd]
    | commandExecution id s c a ec => simp [itemText] at hi
    | mcpToolCall id s sv tl args error result => simp [itemText] at hi
    | fileChange id s ch => simp [itemText] at hi
    | webSearch id q => simp [itemText] at hi
    | todoList id items => simp [itemText] at hi
    | errorItem m => simp [itemText] at hi
    | otherItem id => simp [itemText] at hi
  cases e with
  | turnStarted => simp [eventText] at he
  | turnCompleted u => simp [eventText] at he
  | turnFailed m => simp [eventText] at he
  | itemStarted it => exact hitem it false he
  | itemUpdated it => exact hitem it false he
  | itemCompleted it => exact hitem it true he

/-- Delta-concatenation master: replaying the loop from a sent-length key
recording the accumulated text `acc`, the publishes contributed by item
`x`'s events are exactly one Working delta message per strict extension,
each delta is non-empty, and `acc` followed by their concatenation equals
the last observed text. -/
theorem deltaPubs_master (taskId contextId x : String) :
    ∀ (events : List ThreadEvent) (sT : List (String × Nat))
      (sS : List (String × String)) (acc : String),
    (∀ e ∈ events, touchesTextKey x e = true → (eventText x e).isSome = true) →
    List.Chain' (fun a b => ∃ u, b = a ++ u)
      (acc :: (textsFor x events).map Prod.snd) →
    kvGet sT x = (if acc = "" then none else some acc.length) →
    ∃ ds : List (Bool × String),
      deltaPubsFor taskId contextId x sT sS events = ds.map (deltaMsgPub taskId contextId)
      ∧ (∀ d ∈ ds, d.2 ≠ "")
      ∧ acc ++ strConcat (ds.map Prod.snd) =
          ((textsFor x events).map Prod.snd).getLastD acc := by
  intro events
  induction events with
  | nil =>
    intro sT sS acc hK hmono hacc
    refine ⟨[], rfl, by simp, ?_⟩
    simp [textsFor, strConcat, String.append_empty]
  | cons e rest ih =>
    intro sT sS acc hK hmono hacc
    have hKrest : ∀ e2 ∈ rest, touchesTextKey x e2 = true → (eventText x e2).isSome = true :=
      fun e2 h2 => hK e2 (List.mem_cons_of_mem e h2)
    rcases he : eventText x e with _ | ⟨r, t⟩
    · have htf : textsFor x (e :: rest) = textsFor x rest := by
        simp [textsFor, List.filterMap_cons, he]
      have htc : touchesTextKey x e = false := by
        cases h2 : touchesTextKey x e
        · rfl
        · have h3 := hK e (List.mem_cons_self e rest) h2
          rw [he] at h3
          simp at h3
      have hpres := dispatch_text_other taskId contextId x sT sS e htc
      rw [htf] at hmono
      obtain ⟨ds, h1, h2, h3⟩ := ih (dispatch taskId contextId sT sS e).sentText
        (dispatch taskId contextId sT sS e).sentState acc hKrest hmono
        (by rw [hpres]; exact hacc)
      refine ⟨ds, ?_, h2, ?_⟩
      · simp [deltaPubsFor, htc, h1]
      · rw [htf]
        exact h3
    · have htc : touchesTextKey x e = true :=
        eventText_isSome_touches x e (by rw [he]; rfl)
      have htf : textsFor x (e :: rest) = (r, t) :: textsFor x rest := by
        simp [textsFor, List.filterMap_cons, he]
      rw [htf] at hmono
      simp only [List.map_cons] at hmono
      have hmono2 := (List.chain'_cons.mp hmono).2
      obtain ⟨u, hu⟩ := (List.chain'_cons.mp hmono).1
      obtain ⟨hsT, hpubs⟩ := dispatch_text_self taskId contextId x sT sS e r t he
      have hprev : (kvGet sT x).getD 0 = acc.length := by
        by_cases h0 : acc = ""
        · subst h0
          rw [hacc]
          simp
        · rw [hacc]
          simp [h0]
      have hdelta : t.drop ((kvGet sT x).getD 0) = u := by
        rw [hprev, hu, sAppend_drop_length]
      by_cases hcnd : t ≠ "" ∧ (t.drop ((kvGet sT x).getD 0)).length > 0
      · have hune : u ≠ "" := by
          have hlen := hcnd.2
          rw [hdelta] at hlen
          exact (sLength_pos_iff u).mp hlen
        rw [if_pos hcnd] at hsT hpubs
        have hacc2 : kvGet (kvSet sT x t.length) x =
            (if t = "" then none else some t.length) := by
          rw [kvGet_kvSet_self]
          simp [hcnd.1]
        obtain ⟨ds, h1, h2, h3⟩ := ih (dispatch taskId contextId sT sS e).sentText
          (dispatch taskId contextId sT sS e).sentState t hKrest hmono2
          (by rw [hsT]; exact hacc2)
        refine ⟨(r, u) :: ds, ?_, ?_, ?_⟩
        · simp only [deltaPubsFor, htc, if_true, List.map_cons]
          rw [hpubs, hdelta, h1]
          rfl
        · intro d hd
          rcases List.mem_cons.mp hd with h | h
          · rw [h]
            exact hune
          · exact h2 d h
        · rw [htf]
          simp only [List.map_cons, List.getLastD_cons]
          have hcc : strConcat (u :: ds.map Prod.snd) = u ++ strConcat (ds.map Prod.snd) := rfl
          rw [hcc, ← String.append_assoc, ← hu, h3]
      · rw [if_neg hcnd] at hsT hpubs
        have hteq : t = acc := by
          rcases not_and_or.mp hcnd with h0 | hlen
          · have ht0 : t = "" := not_not.mp h0
            have hae := (sAppend_eq_empty_iff acc u).mp (ht0 ▸ hu.symm)
            rw [ht0, hae.1]
          · have hl0 : u.length = 0 := by
              rw [← hdelta]
              omega
            have hu0 : u = "" := by
              by_contra hne
              have := (sLength_pos_iff u).mpr hne
              omega
            rw [hu0, String.append_empty] at hu
            exact hu
        rw [hteq] at hmono2
        obtain ⟨ds, h1, h2, h3⟩ := ih (dispatch taskId contextId sT sS e).sentText
          (dispatch taskId contextId sT sS e).sentState acc hKrest hmono2
          (by rw [hsT]; exact hacc)
        refine ⟨ds, ?_, h2, ?_⟩
        · simp [deltaPubsFor, htc, hpubs, h1]
        · rw [htf]
          simp only [List.map_cons, List.getLastD_cons]
          rw [← hteq] at h3 ⊢
          exact h3

/-- The provenance projection is a subsequence of the full per-event
stream publishes. -/
theorem deltaPubsFor_sublist (taskId contextId x : String) :
    ∀ (events : List ThreadEvent) (sT : List (String × Nat))
      (sS : List (String × String)),
    List.Sublist (deltaPubsFor taskId contextId x sT sS events)
      (loopPubs taskId contextId sT sS events) := by
  intro events
  induction events with
  | nil =>
    intro sT sS
    exact List.Sublist.refl _
  | cons e rest ih =>
    intro sT sS
    simp only [deltaPubsFor, loopPubs]
    refine List.Sublist.append ?_ (ih _ _)
    split
    · exact List.Sublist.refl _
    · exact List.nil_sublist _

/-- A normal, uninterrupted `execute` publishes the initial records, then
the per-event stream publishes, then the final Completed terminal. -/
theorem execute_pubs_normal (st : ExecSt) (req : RequestCtx)
    (gc : String → CodexConfigPatch) (gwd : String → Option String) (cwd : String)
    (events : List ThreadEvent)
    (hc : st.canceledTasks.contains req.taskId = false)
    (ht : extractText req.userMessage ≠ "")
    (hnf : ∀ e ∈ events, isTurnFailedEv e = false) :
    (execute st req gc gwd cwd events (fun _ => [])).2.1.pubs =
      ((if req.taskExists then [] else [Pub.taskPub req.taskId req.contextId]) ++
        [publishStatus req.taskId req.contextId .working false none (some "state-change")]) ++
      (loopPubs req.taskId req.contextId [] [] events ++
        [publishStatus req.taskId req.contextId .completed true none
          (some "state-change")]) := by
  have hc2 : ¬ req.taskId ∈ st.canceledTasks := by simpa using hc
  have hcond1 : (st.canceledTasks.contains req.taskId = true) = False := by simp [hc2]
  have hcond2 : (extractText req.userMessage = "") = False := by simp [ht]
  unfold execute
  simp only [hcond1, hcond2, if_false]
  repeat' split
  all_goals
    (rw [runLoop_pubs_no_cancel]
     all_goals
       first
         | exact hnf
         | exact hc)

/-- C3: in a normal uninterrupted execution, for every monotonically
growing item `x` (each observed text extends the previous one; the only
events touching `x`'s sent-length key are its own agent-message/reasoning
events), the events for `x` contribute, in order, exactly one non-final
Working message per non-empty delta — a `thought`-tagged data part for
reasoning, a `text-content`-tagged text part otherwise, carrying only the
delta — empty deltas contribute nothing, the concatenation of the
published deltas equals the item's final full text, and these messages
form a subsequence of the execution's published updates. -/
theorem c3_delta_concatenation (st : ExecSt) (req : RequestCtx)
    (gc : String → CodexConfigPatch) (gwd : String → Option String) (cwd : String)
    (events : List ThreadEvent) (x : String)
    (hc : st.canceledTasks.contains req.taskId = false)
    (ht : extractText req.userMessage ≠ "")
    (hnf : ∀ e ∈ events, isTurnFailedEv e = false)
    (hK : ∀ e ∈ events, touchesTextKey x e = true → (eventText x e).isSome = true)
    (hmono : List.Chain' (fun a b => ∃ u, b = a ++ u)
      ((textsFor x events).map Prod.snd)) :
    ∃ ds : List (Bool × String),
      deltaPubsFor req.taskId req.contextId x [] [] events =
        ds.map (deltaMsgPub req.taskId req.contextId)
      ∧ (∀ d ∈ ds, d.2 ≠ "")
      ∧ strConcat (ds.map Prod.snd) = ((textsFor x events).map Prod.snd).getLastD ""
      ∧ List.Sublist (deltaPubsFor req.taskId req.contextId x [] [] events)
          (execute st req gc gwd cwd events (fun _ => [])).2.1.pubs := by
  have hmono0 : List.Chain' (fun a b => ∃ u, b = a ++ u)
      ("" :: (textsFor x events).map Prod.snd) := by
    cases hL : (textsFor x events).map Prod.snd with
    | nil => simp
    | cons a l =>
      rw [List.chain'_cons]
      exact ⟨⟨a, rfl⟩, hL ▸ hmono⟩
  obtain ⟨ds, h1, h2, h3⟩ :=
    deltaPubs_master req.taskId req.contextId x events [] [] "" hK hmono0 (by rfl)
  refine ⟨ds, h1, h2, h3, ?_⟩
  rw [execute_pubs_normal st req gc gwd cwd events hc ht hnf]
  have s1 := deltaPubsFor_sublist req.taskId req.contextId x events [] []
  have s2 := List.sublist_append_left
    (loopPubs req.taskId req.contextId [] [] events)
    [publishStatus req.taskId req.contextId .completed true none (some "state-change")]
  have s3 := List.sublist_append_right
    ((if req.taskExists then [] else [Pub.taskPub req.taskId req.contextId]) ++
      [publishStatus req.taskId req.contextId .working false none (some "state-change")])
    (loopPubs req.taskId req.contextId [] [] events ++
      [publishStatus req.taskId req.contextId .completed true none (some "state-change")])
  exact (s1.trans s2).trans s3

theorem c3_witness :
    (ExecSt.empty.canceledTasks.contains "t" = false) ∧
    extractText [.text "go"] ≠ "" ∧
    (∀ e ∈ [ThreadEvent.itemCompleted (.agentMessage "a1" "Hi")],
      isTurnFailedEv e = false) ∧
    (∀ e ∈ [ThreadEvent.itemCompleted (.agentMessage "a1" "Hi")],
      touchesTextKey "a1" e = true → (eventText "a1" e).isSome = true) ∧
    List.Chain' (fun a b => ∃ u, b = a ++ u)
      ((textsFor "a1" [ThreadEvent.itemCompleted (.agentMessage "a1" "Hi")]).map
        Prod.snd) ∧
    (∃ ds : List (Bool × String),
      deltaPubsFor "t" "c" "a1" [] [] [ThreadEvent.itemCompleted (.agentMessage "a1" "Hi")] =
        ds.map (deltaMsgPub "t" "c")
      ∧ (∀ d ∈ ds, d.2 ≠ "")
      ∧ strConcat (ds.map Prod.snd) =
          ((textsFor "a1" [ThreadEvent.itemCompleted (.agentMessage "a1" "Hi")]).map
            Prod.snd).getLastD ""
      ∧ List.Sublist
          (deltaPubsFor "t" "c" "a1" [] []
            [ThreadEvent.itemCompleted (.agentMessage "a1" "Hi")])
          (execute ExecSt.empty ⟨"t", "c", [.text "go"], false⟩ (fun _ => {})
            (fun _ => none) "/d" [ThreadEvent.itemCompleted (.agentMessage "a1" "Hi")]
            (fun _ => [])).2.1.pubs) :=
  ⟨rfl, by decide, by decide, by decide,
    by simp [textsFor, eventText, itemText],
    c3_delta_concatenation ExecSt.empty ⟨"t", "c", [.text "go"], false⟩ (fun _ => {})
      (fun _ => none) "/d" [ThreadEvent.itemCompleted (.agentMessage "a1" "Hi")] "a1"
      rfl (by decide) (by decide) (by decide)
      (by simp [textsFor, eventText, itemText])⟩

end CodexA2A
